import Mathlib

/-!
Shallow embedding of the content change detection and incremental
synchronization engine (`change_detection.py`, `synchronization_service.py`).

Modelling conventions:
* Python strings are sequences of code points, modelled as `List Char`
  (API-level fields use `String`, scanning functions work on `String.data`).
* Timestamps (ISO datetime strings in the source, compared after parsing)
  are modelled as `Int`; `datetime.now()` is a `now : Int` parameter and a
  single run uses one frozen `now` (only ordering and equality of
  timestamps matter to the verified properties).
* `hashlib.sha256(...).hexdigest()` is modelled as a digest function
  parameter `hash : List Char → String`; collision-freeness of SHA-256 is
  idealised as injectivity where a theorem needs distinct digests, and the
  executable instantiation `modelHash` is the identity embedding.
* Python floats (confidence scores) are modelled as exact rationals `ℚ`;
  every confidence expression in the source is a composition of
  `abs`, `/`, `*`, `min`, `max` on small values, where rational and IEEE
  evaluation agree on the verified comparisons.
* Python `dict` is modelled as an insertion-ordered association list with
  unique keys (`ainsert` updates in place, `aerase` deletes).
* External collaborators (scraper/Fetcher, Azure Search/Indexer, blob
  store) are total oracles in a `SyncEnv`; per-call outcomes are their
  returned success flags, matching the source's use of result objects.
-/

namespace RagSync

/-! ### Python string primitives -/

/-- Python `str.split('\n')`: split on every newline, keeping empty pieces. -/
def splitLines : List Char → List (List Char)
  | [] => [[]]
  | '\n' :: rest => [] :: splitLines rest
  | c :: rest =>
    match splitLines rest with
    | [] => [[c]]
    | l :: ls => (c :: l) :: ls

/-- Python whitespace for `str.strip()` / `str.split()` (ASCII subset). -/
def isPyWs (c : Char) : Bool :=
  c = ' ' || c = '\t' || c = '\n' || c = '\r' || c = '\x0b' || c = '\x0c'

/-- Python `str.strip()`. -/
def strip (l : List Char) : List Char :=
  ((l.dropWhile isPyWs).reverse.dropWhile isPyWs).reverse

/-- `needle` is a prefix of `hay` (both as character lists). -/
def leadsWith : List Char → List Char → Bool
  | [], _ => true
  | _ :: _, [] => false
  | a :: as, b :: bs => a = b && leadsWith as bs

/-- Python `str.count(needle)` for a non-empty needle: number of
non-overlapping occurrences, scanning left to right.  (Callers in the
source only pass the non-empty literals `'\n##'`, `'\n#'`, `'http'`,
`'['`.) -/
def countSub (needle : List Char) (hay : List Char) : Nat :=
  go hay 0
where
  /-- `skip` positions remain to be skipped after a match was counted. -/
  go : List Char → Nat → Nat
  | [], _ => 0
  | c :: rest, 0 =>
    if needle ≠ [] && leadsWith needle (c :: rest) then
      1 + go rest (needle.length - 1)
    else
      go rest 0
  | _ :: rest, k + 1 => go rest k

/-- Python `needle in hay` (substring containment). -/
def hasSubstr (needle : List Char) : List Char → Bool
  | [] => needle.isEmpty
  | c :: rest => leadsWith needle (c :: rest) || hasSubstr needle rest

/-- Python `len(content.split())`: number of maximal runs of
non-whitespace characters. -/
def wordCount : List Char → Nat
  | [] => 0
  | c :: rest =>
    if isPyWs c then wordCount rest
    else 1 + wordCountIn rest
where
  /-- Counting state: currently inside a word. -/
  wordCountIn : List Char → Nat
  | [] => 0
  | c :: rest => if isPyWs c then wordCount rest else wordCountIn rest

/-- `content.count('\n##') + content.count('\n#')` from
`create_content_fingerprint`. -/
def sectionCount (content : List Char) : Nat :=
  countSub ['\n', '#', '#'] content + countSub ['\n', '#'] content

/-- `content.count('http') + content.count('[')` from
`create_content_fingerprint`. -/
def linkCount (content : List Char) : Nat :=
  countSub ['h', 't', 't', 'p'] content + countSub ['['] content

/-! ### Association lists (Python `dict` with insertion order) -/

/-- `d.get(k)` / `d[k]`: first binding of `k`. -/
def alookup {β : Type} (k : String) : List (String × β) → Option β
  | [] => none
  | (k', v) :: rest => if k' = k then some v else alookup k rest

/-- `d[k] = v`: update in place if present (keeping position), else append. -/
def ainsert {β : Type} (k : String) (v : β) : List (String × β) → List (String × β)
  | [] => [(k, v)]
  | (k', v') :: rest =>
    if k' = k then (k, v) :: rest else (k', v') :: ainsert k v rest

/-- `del d[k]`: remove the (unique) binding of `k`, if any. -/
def aerase {β : Type} (k : String) : List (String × β) → List (String × β)
  | [] => []
  | (k', v) :: rest => if k' = k then rest else (k', v) :: aerase k rest

/-! ### Structural elements and their JSON serialization -/

/-- One entry of `elements['headings']`. -/
structure Heading where
  level : Nat
  text : List Char
  deriving DecidableEq

/-- The dict built by `_extract_structural_elements`. -/
structure StructuralElements where
  headings : List Heading
  sections : List (List (List Char))
  lists : Nat
  tables : Nat
  deriving DecidableEq

/-- Number of leading `'#'` characters:
`len(line) - len(line.lstrip('#'))`. -/
def leadingHashes (l : List Char) : Nat :=
  (l.takeWhile (fun c => c = '#')).length

/-- `line.lstrip('#')`. -/
def dropLeadingHashes (l : List Char) : List Char :=
  l.dropWhile (fun c => c = '#')

/-- The per-line accumulation step of `_extract_structural_elements`
(headings appended in order; `lists` incremented for `-`/`*` lines, else
`tables` for lines containing `'[TABLE]'`). -/
def seLineStep (acc : List Heading × Nat × Nat) (line : List Char) :
    List Heading × Nat × Nat :=
  let acc :=
    if leadsWith ['#'] line then
      (acc.1 ++ [⟨leadingHashes line, (strip (dropLeadingHashes line)).take 50⟩],
       acc.2.1, acc.2.2)
    else acc
  if leadsWith ['-'] line || leadsWith ['*'] line then
    (acc.1, acc.2.1 + 1, acc.2.2)
  else if hasSubstr ['[', 'T', 'A', 'B', 'L', 'E', ']'] line then
    (acc.1, acc.2.1, acc.2.2 + 1)
  else acc

/-- Section grouping loop of `_extract_structural_elements`: headings of
level ≤ 2 start a new section, deeper headings join the current one. -/
def buildSections : List Heading → List (List Char) → List (List (List Char))
  | [], current => if current = [] then [] else [current]
  | h :: hs, current =>
    if h.level ≤ 2 then
      (if current = [] then [] else [current]) ++ buildSections hs [h.text]
    else
      buildSections hs (current ++ [h.text])

/-- `_extract_structural_elements` (the happy path; the `except` branch
that substitutes `{}` is unreachable for the pure operations modelled
here). -/
def extractStructuralElements (content : List Char) : StructuralElements :=
  let lines := (splitLines content).map strip
  let hlt := lines.foldl seLineStep ([], 0, 0)
  { headings := hlt.1
    sections := buildSections hlt.1 []
    lists := hlt.2.1
    tables := hlt.2.2 }

/-- JSON string escaping as produced by `json.dumps` (ASCII input; the
escapes produced for the control characters the source can feed in). -/
def jsonEscapeChar (c : Char) : List Char :=
  if c = '"' then ['\\', '"']
  else if c = '\\' then ['\\', '\\']
  else if c = '\n' then ['\\', 'n']
  else if c = '\t' then ['\\', 't']
  else if c = '\r' then ['\\', 'r']
  else [c]

def jsonStr (s : List Char) : List Char :=
  ['"'] ++ (s.flatMap jsonEscapeChar) ++ ['"']

def jsonNat (n : Nat) : List Char :=
  (toString n).data

/-- Render a JSON array given renderings of the items
(`json.dumps` default separator `', '`). -/
def jsonArr (items : List (List Char)) : List Char :=
  ['['] ++ (items.intersperse [',', ' ']).flatten ++ [']']

/-- `json.dumps({'level': …, 'text': …}, sort_keys=True)` for one heading. -/
def jsonHeading (h : Heading) : List Char :=
  ['{'] ++ ('"' :: ('l' :: 'e' :: 'v' :: 'e' :: 'l' :: ['"', ':', ' '])) ++ jsonNat h.level
    ++ [',', ' '] ++ ('"' :: ('t' :: 'e' :: 'x' :: 't' :: ['"', ':', ' '])) ++ jsonStr h.text
    ++ ['}']

/-- `json.dumps(elements, sort_keys=True)`: keys in sorted order
`headings, lists, sections, tables`. -/
def serializeStructuralElements (e : StructuralElements) : List Char :=
  ['{']
    ++ jsonStr ('h' :: 'e' :: 'a' :: 'd' :: 'i' :: 'n' :: 'g' :: ['s']) ++ [':', ' ']
    ++ jsonArr (e.headings.map jsonHeading) ++ [',', ' ']
    ++ jsonStr ('l' :: 'i' :: 's' :: 't' :: ['s']) ++ [':', ' ']
    ++ jsonNat e.lists ++ [',', ' ']
    ++ jsonStr ('s' :: 'e' :: 'c' :: 't' :: 'i' :: 'o' :: 'n' :: ['s']) ++ [':', ' ']
    ++ jsonArr (e.sections.map (fun s => jsonArr (s.map jsonStr))) ++ [',', ' ']
    ++ jsonStr ('t' :: 'a' :: 'b' :: 'l' :: 'e' :: ['s']) ++ [':', ' ']
    ++ jsonNat e.tables
    ++ ['}']

/-- Lexicographic order on code points, for `sort_keys=True`. -/
def lexLe : List Char → List Char → Bool
  | [], _ => true
  | _ :: _, [] => false
  | a :: as, b :: bs =>
    if a = b then lexLe as bs else decide (a < b)

/-- Stable insertion of a key/value pair by key order. -/
def insByKey (p : String × String) : List (String × String) → List (String × String)
  | [] => [p]
  | q :: qs => if lexLe p.1.data q.1.data then p :: q :: qs else q :: insByKey p qs

/-- Sort a metadata map by key (`sort_keys=True`). -/
def sortPairs : List (String × String) → List (String × String)
  | [] => []
  | p :: ps => insByKey p (sortPairs ps)

/-- `json.dumps(metadata, sort_keys=True, default=str)`; metadata values
are modelled as already-rendered strings (only determinism of this
serialization is relied on). -/
def serializeMetadata (md : List (String × String)) : List Char :=
  ['{']
    ++ ((sortPairs md).map
          (fun p => jsonStr p.1.data ++ [':', ' '] ++ jsonStr p.2.data)
        |>.intersperse [',', ' ']).flatten
    ++ ['}']

/-! ### ContentFingerprint and `create_content_fingerprint` -/

structure ContentFingerprint where
  url : String
  content_hash : String
  structural_hash : String
  metadata_hash : String
  last_modified : Int
  word_count : Nat
  title : String
  section_count : Nat
  link_count : Nat
  deriving DecidableEq

/-- `ChangeDetectionSystem.create_content_fingerprint`. -/
def createContentFingerprint (hash : List Char → String) (now : Int)
    (url : String) (content : String) (metadata : List (String × String)) :
    ContentFingerprint :=
  let cs := content.data
  { url := url
    content_hash := hash cs
    structural_hash := hash (serializeStructuralElements (extractStructuralElements cs))
    metadata_hash := hash (serializeMetadata metadata)
    last_modified := now
    word_count := wordCount cs
    title := (alookup "title" metadata).getD ""
    section_count := sectionCount cs
    link_count := linkCount cs }

/-- Executable digest instantiation: the identity embedding of the hashed
text (injective, idealising SHA-256 collision-freeness). -/
def modelHash (cs : List Char) : String := ⟨cs⟩

/-! ### Change events and `detect_changes` -/

structure ContentChangeDetail where
  old_word_count : Nat
  new_word_count : Nat
  word_count_change : Int
  deriving DecidableEq

structure StructuralChangeDetail where
  old_section_count : Nat
  new_section_count : Nat
  section_count_change : Int
  deriving DecidableEq

structure MetadataChangeDetail where
  old_title : String
  new_title : String
  deriving DecidableEq

/-- The `change_details` dict (keys present only when the corresponding
category changed; `reason` only for new content). -/
structure ChangeDetails where
  reason : Option String
  content_change : Option ContentChangeDetail
  structural_change : Option StructuralChangeDetail
  metadata_change : Option MetadataChangeDetail
  deriving DecidableEq

def ChangeDetails.empty : ChangeDetails :=
  { reason := none, content_change := none, structural_change := none,
    metadata_change := none }

structure ChangeEvent where
  url : String
  change_type : String
  old_fingerprint : Option ContentFingerprint
  new_fingerprint : Option ContentFingerprint
  detected_at : Int
  confidence_score : ℚ
  change_details : ChangeDetails
  deriving DecidableEq

structure MonitoringSchedule where
  content_type : String
  frequency_hours : Nat
  priority : String
  last_check : Option Int
  next_check : Int
  deriving DecidableEq

/-- The mutable maps of `ChangeDetectionSystem`. -/
structure ChangeDetectionState where
  content_fingerprints : List (String × ContentFingerprint)
  change_history : List ChangeEvent
  monitoring_schedules : List (String × MonitoringSchedule)
  deriving DecidableEq

/-- Python `min` on two rationals (chosen over Mathlib's lattice `min`
so that proofs by `decide` can evaluate it). -/
def qmin (a b : ℚ) : ℚ := if a ≤ b then a else b

/-- Python `max` on two rationals. -/
def qmax (a b : ℚ) : ℚ := if a ≤ b then b else a

/-- Python `abs` on a rational. -/
def qabs (a : ℚ) : ℚ := if a ≤ 0 then -a else a

/-- The `try` body of `_calculate_change_confidence`: a max over
per-category scores, finally clamped by `min(…, 1.0)`.  Wrapped in
`Except` to mirror the `try`; every operation in the body is total. -/
def calcChangeConfidenceBody (oldFp newFp : ContentFingerprint)
    (changes : List String) : Except String ℚ :=
  let confidence : ℚ := 0
  let confidence :=
    if changes.contains "content" then
      let wordChangeFrac : ℚ :=
        qabs ((newFp.word_count : ℚ) - (oldFp.word_count : ℚ)) /
          qmax (oldFp.word_count : ℚ) 1
      qmax confidence (qmin (wordChangeFrac * 2) 1)
    else confidence
  let confidence :=
    if changes.contains "structure" then
      let sectionChangeFrac : ℚ :=
        qabs ((newFp.section_count : ℚ) - (oldFp.section_count : ℚ)) /
          qmax (oldFp.section_count : ℚ) 1
      qmax confidence (qmin (sectionChangeFrac * 3) 1)
    else confidence
  let confidence :=
    if changes.contains "metadata" then
      if oldFp.title ≠ newFp.title then qmax confidence (8 / 10)
      else qmax confidence (3 / 10)
    else confidence
  .ok (qmin confidence 1)

/-- The `except:` fallback of `_calculate_change_confidence`: a failing
body yields the default confidence `0.5`. -/
def confidenceWithFallback (body : Except String ℚ) : ℚ :=
  match body with
  | .ok v => v
  | .error _ => 1 / 2

/-- `ChangeDetectionSystem._calculate_change_confidence`. -/
def calcChangeConfidence (oldFp newFp : ContentFingerprint)
    (changes : List String) : ℚ :=
  confidenceWithFallback (calcChangeConfidenceBody oldFp newFp changes)

/-- `ChangeDetectionSystem._determine_primary_change_type`: first match in
the priority order `structure > content > metadata`. -/
def determinePrimaryChangeType (changes : List String) : String :=
  if changes.contains "structure" then "structure"
  else if changes.contains "content" then "content"
  else if changes.contains "metadata" then "metadata"
  else match changes with
    | c :: _ => c
    | [] => "unknown"

/-- `ChangeDetectionSystem.detect_changes`: returns the emitted event (if
any) and the updated state. -/
def detectChanges (now : Int) (url : String) (newFp : ContentFingerprint)
    (st : ChangeDetectionState) : Option ChangeEvent × ChangeDetectionState :=
  match alookup url st.content_fingerprints with
  | none =>
    let ev : ChangeEvent :=
      { url := url, change_type := "new", old_fingerprint := none,
        new_fingerprint := some newFp, detected_at := now,
        confidence_score := 1,
        change_details :=
          { ChangeDetails.empty with reason := some "New content discovered" } }
    (some ev,
      { st with
        content_fingerprints := ainsert url newFp st.content_fingerprints
        change_history := st.change_history ++ [ev] })
  | some oldFp =>
    let contentChanged := oldFp.content_hash ≠ newFp.content_hash
    let structureChanged := oldFp.structural_hash ≠ newFp.structural_hash
    let metadataChanged := oldFp.metadata_hash ≠ newFp.metadata_hash
    let changes :=
      (if contentChanged then ["content"] else []) ++
      (if structureChanged then ["structure"] else []) ++
      (if metadataChanged then ["metadata"] else [])
    let details : ChangeDetails :=
      { reason := none
        content_change :=
          if contentChanged then
            some { old_word_count := oldFp.word_count,
                   new_word_count := newFp.word_count,
                   word_count_change :=
                     (newFp.word_count : Int) - (oldFp.word_count : Int) }
          else none
        structural_change :=
          if structureChanged then
            some { old_section_count := oldFp.section_count,
                   new_section_count := newFp.section_count,
                   section_count_change :=
                     (newFp.section_count : Int) - (oldFp.section_count : Int) }
          else none
        metadata_change :=
          if metadataChanged then
            some { old_title := oldFp.title, new_title := newFp.title }
          else none }
    if changes ≠ [] then
      let ev : ChangeEvent :=
        { url := url
          change_type := determinePrimaryChangeType changes
          old_fingerprint := some oldFp
          new_fingerprint := some newFp
          detected_at := now
          confidence_score := calcChangeConfidence oldFp newFp changes
          change_details := details }
      (some ev,
        { st with
          content_fingerprints := ainsert url newFp st.content_fingerprints
          change_history := st.change_history ++ [ev] })
    else
      -- No changes detected: refresh the stored fingerprint, keeping the
      -- old `last_modified` (it tracks the last content change).
      (none,
        { st with
          content_fingerprints :=
            ainsert url { newFp with last_modified := oldFp.last_modified }
              st.content_fingerprints })

/-! ### Monitoring schedules -/

/-- `ChangeDetectionSystem.default_frequencies`. -/
def defaultFrequencies : List (String × Nat) :=
  [("procedure", 6), ("reference", 24), ("overview", 72), ("faq", 12),
   ("documentation", 48)]

/-- `ChangeDetectionSystem.setup_monitoring_schedule`.  Frequencies in
hours; `next_check = now + frequency_hours` models
`datetime.now() + timedelta(hours=frequency_hours)`. -/
def setupMonitoringSchedule (now : Int) (url contentType priority : String)
    (st : ChangeDetectionState) : ChangeDetectionState :=
  let base := (alookup contentType defaultFrequencies).getD 24
  let freq :=
    if priority = "high" then max (base / 2) 1
    else if priority = "low" then base * 2
    else base
  let entry : MonitoringSchedule :=
    { content_type := contentType, frequency_hours := freq,
      priority := priority, last_check := none,
      next_check := now + (freq : Int) }
  { st with monitoring_schedules := ainsert url entry st.monitoring_schedules }

/-- `priority_values.get(priority, 1)` from the sort key of
`get_urls_due_for_check`. -/
def priorityRank (p : String) : Nat :=
  if p = "high" then 0 else if p = "medium" then 1
  else if p = "low" then 2 else 1

/-- The sort key `priority_sort_key(url)`: rank of the url's scheduled
priority (every url passed to it is a key of the schedule map). -/
def scheduleRank (st : ChangeDetectionState) (url : String) : Nat :=
  match alookup url st.monitoring_schedules with
  | some e => priorityRank e.priority
  | none => 1

/-- Stable ascending insertion by a `Nat` key: `x` goes before the first
element of greater-or-equal key. -/
def insSorted {α : Type} (key : α → Nat) (x : α) : List α → List α
  | [] => [x]
  | y :: ys => if key x ≤ key y then x :: y :: ys else y :: insSorted key x ys

/-- A stable ascending sort by key, modelling Python's stable
`list.sort(key=…)`. -/
def sortByKey {α : Type} (key : α → Nat) : List α → List α
  | [] => []
  | x :: xs => insSorted key x (sortByKey key xs)

/-- `ChangeDetectionSystem.get_urls_due_for_check` at time `now`: keys
whose `next_check ≤ now` (`current_time >= next_check_time`), in map
insertion order, then stably sorted by priority rank. -/
def getUrlsDueForCheck (now : Int) (st : ChangeDetectionState) : List String :=
  let due :=
    (st.monitoring_schedules.filter (fun p => p.2.next_check ≤ now)).map Prod.fst
  sortByKey (scheduleRank st) due

/-- `ChangeDetectionSystem.update_monitoring_schedule`. -/
def updateMonitoringSchedule (now : Int) (url : String)
    (st : ChangeDetectionState) : ChangeDetectionState :=
  match alookup url st.monitoring_schedules with
  | none => st
  | some e =>
    { st with
      monitoring_schedules :=
        ainsert url
          { e with last_check := some now,
                   next_check := now + (e.frequency_hours : Int) }
          st.monitoring_schedules }

/-! ### Synchronization service: data model -/

/-- `DocumentMetadata` from the scraper (non-string fields are carried in
an opaque string rendering; only equality and the `title`/`content_type`
fields are consumed by the synchronization flow). -/
structure DocumentMetadata where
  url : String
  title : String
  content_hash : String
  last_modified : String
  content_type : String
  section_hierarchy : List String
  word_count : Nat
  links : List String
  images : List String
  extraction_timestamp : String
  source_view : String
  deriving DecidableEq

/-- `asdict(scraping_result.metadata)` as a string-valued map. -/
def asdictMeta (m : DocumentMetadata) : List (String × String) :=
  [("url", m.url), ("title", m.title), ("content_hash", m.content_hash),
   ("last_modified", m.last_modified), ("content_type", m.content_type),
   ("section_hierarchy", String.intercalate "," m.section_hierarchy),
   ("word_count", toString m.word_count),
   ("links", String.intercalate "," m.links),
   ("images", String.intercalate "," m.images),
   ("extraction_timestamp", m.extraction_timestamp),
   ("source_view", m.source_view)]

/-- `ScrapingResult` (Optional fields flattened: the service reads
`content`/`metadata` only when `success` and `error_message` only when
not). -/
structure ScrapingResult where
  success : Bool
  metadata : DocumentMetadata
  content : String
  error_message : String
  deriving DecidableEq

/-- The `document_data` dict submitted to
`search_integration.index_document`. -/
structure IndexDoc where
  url : String
  title : String
  content : String
  metadata : List (String × String)
  deriving DecidableEq

structure SyncOperation where
  operation_id : String
  operation_type : String
  status : String
  started_at : Option Int
  completed_at : Option Int
  urls_processed : Nat
  urls_updated : Nat
  urls_failed : Nat
  errors : List String
  deriving DecidableEq

structure SyncMetrics where
  total_syncs : Nat
  successful_syncs : Nat
  failed_syncs : Nat
  average_sync_time : ℚ
  deriving DecidableEq

structure SyncStatistics where
  total_syncs : Nat
  successful_syncs : Nat
  failed_syncs : Nat
  success_rate : ℚ
  average_sync_time : ℚ
  last_full_sync : Option Int
  last_incremental_sync : Option Int
  total_documents : Nat
  monitored_urls : Nat
  deriving DecidableEq

structure SyncResult where
  operation_id : String
  success : Bool
  total_processed : Nat
  newly_indexed : Nat
  updated_indexed : Nat
  removed_indexed : Nat
  errors : List String
  execution_time : ℚ
  sync_statistics : SyncStatistics
  deriving DecidableEq

/-- The service state the verified flows touch. -/
structure SyncState where
  cds : ChangeDetectionState
  sync_history : List SyncResult
  sync_metrics : SyncMetrics
  last_full_sync : Option Int
  last_incremental_sync : Option Int
  deriving DecidableEq

/-- External collaborators and ambient run parameters.  `fetch`,
`indexDocument` and `deleteDocument` are total oracles returning the
success flags the source branches on; `hash` models
`hashlib.sha256(…).hexdigest()`; `now` is the frozen run clock and
`execTime` the wall-clock duration reported for the run. -/
structure SyncEnv where
  fetch : String → ScrapingResult
  indexDocument : IndexDoc → Bool
  deleteDocument : String → Bool
  hash : List Char → String
  now : Int
  execTime : ℚ
  batchSize : Nat

/-- Calls to external services recorded by a run, in call order per
service. -/
structure SyncLog where
  indexCalls : List IndexDoc
  scheduleSetups : List String
  blobStores : List String
  deleteCalls : List String
  deriving DecidableEq

def SyncLog.empty : SyncLog :=
  { indexCalls := [], scheduleSetups := [], blobStores := [], deleteCalls := [] }

/-- `SynchronizationService._is_valid_url_format`. -/
def isValidUrlFormat (url : String) : Bool :=
  leadsWith ('h' :: 't' :: 't' :: 'p' :: 's' :: ':' :: '/' :: ['/']) url.data
    && hasSubstr
        ('e' :: 'x' :: 'p' :: 'o' :: 'n' :: 'e' :: 'n' :: 't' :: 'h' :: 'r'
          :: '.' :: 'c' :: 'o' :: ['m']) url.data
    && hasSubstr ['#', 't', '='] url.data

/-- `range(0, len(l), batch_size)` slicing; the service's configured
batch size is at least 1 (default 20). -/
def chunkList {α : Type} (n : Nat) : List α → List (List α)
  | [] => []
  | x :: xs =>
    (x :: xs).take (max n 1) :: chunkList n ((x :: xs).drop (max n 1))
  termination_by l => l.length
  decreasing_by
    simp only [List.length_drop, List.length_cons]
    omega

/-- The `document_data` dict built for `url` from its scraping result. -/
def docOf (env : SyncEnv) (url : String) : IndexDoc :=
  { url := url
    title := (env.fetch url).metadata.title
    content := (env.fetch url).content
    metadata := asdictMeta (env.fetch url).metadata }

/-! ### Full synchronization: per-URL processing -/

/-- Accumulator of `_process_url_batch` (counters, error list, the change
detector state and the external-call log). -/
structure BatchAcc where
  processed : Nat
  newly_indexed : Nat
  updated_indexed : Nat
  errors : List String
  cds : ChangeDetectionState
  log : SyncLog

/-- One iteration of the `for url in urls` loop of
`_process_url_batch`. -/
def processUrlFull (env : SyncEnv) (acc : BatchAcc) (url : String) : BatchAcc :=
  let r := env.fetch url
  let acc := { acc with processed := acc.processed + 1 }
  if r.success then
    let fingerprint :=
      createContentFingerprint env.hash env.now url r.content (asdictMeta r.metadata)
    let (changeEvent, cds) := detectChanges env.now url fingerprint acc.cds
    let doc := docOf env url
    let log := { acc.log with indexCalls := acc.log.indexCalls ++ [doc] }
    if env.indexDocument doc then
      let acc :=
        match changeEvent with
        | some ev =>
          if ev.change_type = "new" then
            { acc with newly_indexed := acc.newly_indexed + 1 }
          else
            { acc with updated_indexed := acc.updated_indexed + 1 }
        | none => { acc with updated_indexed := acc.updated_indexed + 1 }
      let cds := setupMonitoringSchedule env.now url r.metadata.content_type "medium" cds
      { acc with cds := cds
                 log := { log with
                          scheduleSetups := log.scheduleSetups ++ [url]
                          blobStores := log.blobStores ++ [url] } }
    else
      { acc with cds := cds, log := log
                 errors := acc.errors ++ ["Failed to index document: " ++ url] }
  else
    { acc with
      errors := acc.errors ++
        ["Failed to scrape document: " ++ url ++ " - " ++ r.error_message] }

/-- `SynchronizationService._process_url_batch`: fresh counters and error
list per batch, threading the change detector state. -/
def processUrlBatch (env : SyncEnv) (urls : List String)
    (cds : ChangeDetectionState) (log : SyncLog) : BatchAcc :=
  urls.foldl (processUrlFull env)
    { processed := 0, newly_indexed := 0, updated_indexed := 0, errors := [],
      cds := cds, log := log }

/-! ### Incremental synchronization: per-URL processing -/

structure IncAcc where
  processed : Nat
  updated_indexed : Nat
  errors : List String
  cds : ChangeDetectionState
  log : SyncLog

/-- One iteration of the `for url in urls` loop of
`_process_incremental_batch`. -/
def processUrlIncremental (env : SyncEnv) (acc : IncAcc) (url : String) : IncAcc :=
  let r := env.fetch url
  let acc := { acc with processed := acc.processed + 1 }
  let acc :=
    if r.success then
      let fingerprint :=
        createContentFingerprint env.hash env.now url r.content (asdictMeta r.metadata)
      let (changeEvent, cds) := detectChanges env.now url fingerprint acc.cds
      let acc := { acc with cds := cds }
      match changeEvent with
      | some _ =>
        let doc := docOf env url
        let log := { acc.log with indexCalls := acc.log.indexCalls ++ [doc] }
        if env.indexDocument doc then
          { acc with updated_indexed := acc.updated_indexed + 1
                     log := { log with blobStores := log.blobStores ++ [url] } }
        else
          { acc with log := log
                     errors := acc.errors ++ ["Failed to update index for: " ++ url] }
      | none => acc
    else acc
  -- `update_monitoring_schedule` runs for every url, also on fetch failure.
  { acc with cds := updateMonitoringSchedule env.now url acc.cds }

/-- `SynchronizationService._process_incremental_batch`. -/
def processIncrementalBatch (env : SyncEnv) (urls : List String)
    (cds : ChangeDetectionState) (log : SyncLog) : IncAcc :=
  urls.foldl (processUrlIncremental env)
    { processed := 0, updated_indexed := 0, errors := [], cds := cds, log := log }

/-! ### Obsolete document cleanup -/

structure CleanupAcc where
  removed : Nat
  cds : ChangeDetectionState
  deleteCalls : List String

/-- One iteration of the `for url in obsolete_urls` loop of
`_cleanup_obsolete_documents`: delete by the sha256 document id and, on
success, drop the url's fingerprint and schedule entry. -/
def cleanupUrl (env : SyncEnv) (acc : CleanupAcc) (url : String) : CleanupAcc :=
  let docId := env.hash url.data
  let acc := { acc with deleteCalls := acc.deleteCalls ++ [docId] }
  if env.deleteDocument docId then
    { acc with
      removed := acc.removed + 1
      cds := { acc.cds with
               content_fingerprints := aerase url acc.cds.content_fingerprints
               monitoring_schedules := aerase url acc.cds.monitoring_schedules } }
  else acc

/-- `SynchronizationService._cleanup_obsolete_documents`.  The obsolete
set `stored_urls - current_url_set` is a Python set; its iteration order
is modelled as fingerprint-map insertion order (no verified property
depends on the order). -/
def cleanupObsoleteDocuments (env : SyncEnv) (current_urls : List String)
    (cds : ChangeDetectionState) : CleanupAcc :=
  let stored := cds.content_fingerprints.map Prod.fst
  let obsolete := stored.filter (fun u => !(current_urls.contains u))
  obsolete.foldl (cleanupUrl env) { removed := 0, cds := cds, deleteCalls := [] }

/-! ### Metrics, statistics and run assembly -/

/-- `SynchronizationService._update_sync_metrics` (the incremental
running-average update). -/
def updateSyncMetrics (m : SyncMetrics) (success : Bool) (t : ℚ) : SyncMetrics :=
  let total := m.total_syncs + 1
  { total_syncs := total
    successful_syncs := m.successful_syncs + (if success then 1 else 0)
    failed_syncs := m.failed_syncs + (if success then 0 else 1)
    average_sync_time :=
      (m.average_sync_time * ((total : ℚ) - 1) + t) / (total : ℚ) }

/-- `SynchronizationService._get_sync_statistics`. -/
def getSyncStatistics (st : SyncState) : SyncStatistics :=
  { total_syncs := st.sync_metrics.total_syncs
    successful_syncs := st.sync_metrics.successful_syncs
    failed_syncs := st.sync_metrics.failed_syncs
    success_rate :=
      ((st.sync_metrics.successful_syncs : ℚ) /
        max (st.sync_metrics.total_syncs : ℚ) 1) * 100
    average_sync_time := st.sync_metrics.average_sync_time
    last_full_sync := st.last_full_sync
    last_incremental_sync := st.last_incremental_sync
    total_documents := st.cds.content_fingerprints.length
    monitored_urls := st.cds.monitoring_schedules.length }

/-- Everything a run produces: the returned `SyncResult`, the finished
`SyncOperation`, the sequence of operation snapshots (creation, after
every batch-loop status update, completion), the new service state and
the external-call log. -/
structure RunOutput where
  result : SyncResult
  finalOp : SyncOperation
  opTrace : List SyncOperation
  st : SyncState
  log : SyncLog

/-- Batch-loop accumulator of `perform_full_synchronization`. -/
structure FullRunAcc where
  total_processed : Nat
  newly_indexed : Nat
  updated_indexed : Nat
  errors : List String
  cds : ChangeDetectionState
  log : SyncLog
  op : SyncOperation
  trace : List SyncOperation

/-- One iteration of the batch loop of `perform_full_synchronization`:
process the batch, accumulate counters and errors, and update the active
operation's status fields. -/
def fullRunBatchStep (env : SyncEnv) (acc : FullRunAcc) (batch : List String) :
    FullRunAcc :=
  let br := processUrlBatch env batch acc.cds acc.log
  let total_processed := acc.total_processed + br.processed
  let newly_indexed := acc.newly_indexed + br.newly_indexed
  let updated_indexed := acc.updated_indexed + br.updated_indexed
  let errors := acc.errors ++ br.errors
  let op :=
    { acc.op with
      urls_processed := total_processed
      urls_updated := newly_indexed + updated_indexed
      urls_failed := errors.length
      errors := errors }
  { total_processed := total_processed, newly_indexed := newly_indexed,
    updated_indexed := updated_indexed, errors := errors,
    cds := br.cds, log := br.log, op := op, trace := acc.trace ++ [op] }

/-- `SynchronizationService.perform_full_synchronization`.

`discovered` stands for the enumeration of the set union of the URLs the
Discoverer returned across the requested views (a Python set, so the
enumeration order is an input here); the Discoverer itself is out of
scope and discovery failures are not modelled.  The run filters to
syntactically valid URLs, processes them in batches of
`env.batchSize`, cleans up obsolete documents, and finalizes. -/
def performFullSynchronization (env : SyncEnv) (discovered : List String)
    (st : SyncState) : RunOutput :=
  let op0 : SyncOperation :=
    { operation_id := "full_sync_" ++ toString env.now
      operation_type := "full_sync", status := "running"
      started_at := some env.now, completed_at := none
      urls_processed := 0, urls_updated := 0, urls_failed := 0, errors := [] }
  let valid_urls := discovered.filter isValidUrlFormat
  let batches := chunkList env.batchSize valid_urls
  let a :=
    batches.foldl (fullRunBatchStep env)
      { total_processed := 0, newly_indexed := 0, updated_indexed := 0,
        errors := [], cds := st.cds, log := SyncLog.empty, op := op0,
        trace := [op0] }
  let cleanup := cleanupObsoleteDocuments env valid_urls a.cds
  let log := { a.log with deleteCalls := cleanup.deleteCalls }
  let success : Bool := decide (a.errors.length = 0)
  let finalOp :=
    { a.op with
      status := if success then "completed" else "failed"
      completed_at := some env.now }
  let st' : SyncState :=
    { cds := cleanup.cds
      sync_history := st.sync_history
      sync_metrics := updateSyncMetrics st.sync_metrics success env.execTime
      last_full_sync := some env.now
      last_incremental_sync := st.last_incremental_sync }
  let result : SyncResult :=
    { operation_id := op0.operation_id
      success := success
      total_processed := a.total_processed
      newly_indexed := a.newly_indexed
      updated_indexed := a.updated_indexed
      removed_indexed := cleanup.removed
      errors := a.errors
      execution_time := env.execTime
      sync_statistics := getSyncStatistics st' }
  { result := result
    finalOp := finalOp
    opTrace := a.trace ++ [finalOp]
    st := { st' with sync_history := st.sync_history ++ [result] }
    log := log }

/-- Batch-loop accumulator of `perform_incremental_synchronization`. -/
structure IncRunAcc where
  total_processed : Nat
  updated_indexed : Nat
  errors : List String
  cds : ChangeDetectionState
  log : SyncLog
  op : SyncOperation
  trace : List SyncOperation

/-- One iteration of the batch loop of
`perform_incremental_synchronization`. -/
def incRunBatchStep (env : SyncEnv) (acc : IncRunAcc) (batch : List String) :
    IncRunAcc :=
  let br := processIncrementalBatch env batch acc.cds acc.log
  let total_processed := acc.total_processed + br.processed
  let updated_indexed := acc.updated_indexed + br.updated_indexed
  let errors := acc.errors ++ br.errors
  let op :=
    { acc.op with
      urls_processed := total_processed
      urls_updated := updated_indexed
      urls_failed := errors.length
      errors := errors }
  { total_processed := total_processed, updated_indexed := updated_indexed,
    errors := errors, cds := br.cds, log := br.log, op := op,
    trace := acc.trace ++ [op] }

/-- `SynchronizationService.perform_incremental_synchronization`: the
input set is the scheduler's due list; no obsolete cleanup.  An empty due
list returns immediately with all-zero counts and `success = true` (the
operation is dropped from the active set still in status `running`). -/
def performIncrementalSynchronization (env : SyncEnv) (st : SyncState) :
    RunOutput :=
  let op0 : SyncOperation :=
    { operation_id := "incremental_sync_" ++ toString env.now
      operation_type := "incremental_sync", status := "running"
      started_at := some env.now, completed_at := none
      urls_processed := 0, urls_updated := 0, urls_failed := 0, errors := [] }
  let urls_to_check := getUrlsDueForCheck env.now st.cds
  if urls_to_check.isEmpty then
    let result : SyncResult :=
      { operation_id := op0.operation_id, success := true
        total_processed := 0, newly_indexed := 0, updated_indexed := 0,
        removed_indexed := 0, errors := [], execution_time := env.execTime
        sync_statistics := getSyncStatistics st }
    { result := result, finalOp := op0, opTrace := [op0]
      st := { st with sync_history := st.sync_history ++ [result] }
      log := SyncLog.empty }
  else
    let batches := chunkList env.batchSize urls_to_check
    let a :=
      batches.foldl (incRunBatchStep env)
        { total_processed := 0, updated_indexed := 0, errors := [],
          cds := st.cds, log := SyncLog.empty, op := op0, trace := [op0] }
    let success : Bool := decide (a.errors.length = 0)
    let finalOp :=
      { a.op with
        status := if success then "completed" else "failed"
        completed_at := some env.now }
    let st' : SyncState :=
      { cds := a.cds
        sync_history := st.sync_history
        sync_metrics := updateSyncMetrics st.sync_metrics success env.execTime
        last_full_sync := st.last_full_sync
        last_incremental_sync := some env.now }
    let result : SyncResult :=
      { operation_id := op0.operation_id
        success := success
        total_processed := a.total_processed
        newly_indexed := 0      -- the local `newly_indexed` is never incremented
        updated_indexed := a.updated_indexed
        removed_indexed := 0    -- the local `removed_indexed` is never incremented
        errors := a.errors
        execution_time := env.execTime
        sync_statistics := getSyncStatistics st' }
    { result := result
      finalOp := finalOp
      opTrace := a.trace ++ [finalOp]
      st := { st' with sync_history := st.sync_history ++ [result] }
      log := a.log }

/-! ### Specification-side definitions (for refinement statements) -/

/-- The base monitoring frequency table as the specification words it,
amended to the source's fallback: known types `procedure=6`,
`reference=24`, `overview=72`, `faq=12`, `documentation=48`; any unknown
content type falls back to `24`. -/
def specBaseFrequency (ct : String) : Nat :=
  if "procedure" = ct then 6
  else if "reference" = ct then 24
  else if "overview" = ct then 72
  else if "faq" = ct then 12
  else if "documentation" = ct then 48
  else 24

/-- The priority adjustment as the specification words it: halve (floor,
minimum 1) for `high`, double for `low`, unchanged otherwise. -/
def specAdjustedFrequency (ct p : String) : Nat :=
  let base := specBaseFrequency ct
  if p = "high" then max (base / 2) 1
  else if p = "low" then base * 2
  else base

/-- The claim's priority rank: `high = 0`, `medium = 1`, `low = 2` (the
claim assigns no rank to other strings; theorems using this assume the
schedule only holds these three priorities). -/
def specPriorityRank (p : String) : Nat :=
  if p = "high" then 0 else if p = "medium" then 1 else 2

/-- The claim's rank of a scheduled URL. -/
def specPriorityRankOf (st : ChangeDetectionState) (u : String) : Nat :=
  match alookup u st.monitoring_schedules with
  | some e => specPriorityRank e.priority
  | none => 1

/-- The per-URL fetch-failure message appended to the run's error list. -/
def scrapeFailMsg (env : SyncEnv) (u : String) : String :=
  "Failed to scrape document: " ++ u ++ " - " ++ (env.fetch u).error_message

/-- The per-URL error entry `_process_url_batch` produces for `u`
(`none` when the url is processed without error). -/
def batchErrOf (env : SyncEnv) (u : String) : Option String :=
  if (env.fetch u).success then
    if env.indexDocument (docOf env u) then none
    else some ("Failed to index document: " ++ u)
  else some (scrapeFailMsg env u)

/-- Keys of the fingerprint store. -/
def fingerprintKeys (cds : ChangeDetectionState) : List String :=
  cds.content_fingerprints.map Prod.fst

/-- Status moves only along `pending → running → {completed, failed}`:
either unchanged, or one of the claimed edges. -/
def allowedStatusStep (a b : SyncOperation) : Prop :=
  a.status = b.status ∨
  (a.status = "pending" ∧ b.status = "running") ∨
  (a.status = "running" ∧ (b.status = "completed" ∨ b.status = "failed"))

/-- The three running counters do not decrease from `a` to `b`. -/
def countersMono (a b : SyncOperation) : Prop :=
  a.urls_processed ≤ b.urls_processed ∧
  a.urls_updated ≤ b.urls_updated ∧
  a.urls_failed ≤ b.urls_failed

/-- One observable step of a `SyncOperation`. -/
def opStepOk (a b : SyncOperation) : Prop :=
  allowedStatusStep a b ∧ countersMono a b

/-- The status field takes no values outside the claimed four. -/
def statusOk (op : SyncOperation) : Prop :=
  op.status = "pending" ∨ op.status = "running" ∨
  op.status = "completed" ∨ op.status = "failed"

/-- The active operation's reported counters agree with the batch loop's
accumulators (holds on creation and is maintained by every batch-loop
status update). -/
def fullAccOpSync (acc : FullRunAcc) : Prop :=
  acc.op.urls_processed = acc.total_processed ∧
  acc.op.urls_updated = acc.newly_indexed + acc.updated_indexed ∧
  acc.op.urls_failed = acc.errors.length ∧
  acc.op.errors = acc.errors

/-! ### Concrete instances used by counterexamples and witnesses -/

/-- A document metadata record with the given url/title/content type and
fixed remaining fields. -/
def mkMeta (u t ct : String) : DocumentMetadata :=
  { url := u, title := t, content_hash := "ch", last_modified := "lm",
    content_type := ct, section_hierarchy := [], word_count := 0,
    links := [], images := [], extraction_timestamp := "ts",
    source_view := "personal" }

def emptyCds : ChangeDetectionState :=
  { content_fingerprints := [], change_history := [], monitoring_schedules := [] }

def zeroMetrics : SyncMetrics :=
  { total_syncs := 0, successful_syncs := 0, failed_syncs := 0,
    average_sync_time := 0 }

/-- The "Edit Direct Deposit"-style scenario: a short document and the
same document with exactly one appended `## ` heading section. -/
def exContentOld : String := "# T\n## A\nsome words here"

def exContentNew : String := exContentOld ++ "\n## B"

def exMetadata : List (String × String) :=
  [("title", "T doc"), ("content_type", "procedure")]

def exUrl : String := "https://exponenthr.com/t#t=1"

def exFpOld : ContentFingerprint :=
  createContentFingerprint modelHash 100 exUrl exContentOld exMetadata

def exFpNew : ContentFingerprint :=
  createContentFingerprint modelHash 200 exUrl exContentNew exMetadata

def exSt1 : ChangeDetectionState := (detectChanges 100 exUrl exFpOld emptyCds).2

/-- Concrete full-sync environment whose fetcher returns the same content
every time (so a re-scrape of an already fingerprinted url detects no
change). -/
def c2Url : String := "https://exponenthr.com/p#t=9"

def c2Env : SyncEnv :=
  { fetch := fun u => { success := true, metadata := mkMeta u "P" "procedure",
                        content := "# P\nbody", error_message := "" }
    indexDocument := fun _ => true
    deleteDocument := fun _ => true
    hash := modelHash, now := 7, execTime := 1, batchSize := 20 }

def c2PriorFp : ContentFingerprint :=
  createContentFingerprint modelHash 3 c2Url "# P\nbody" (asdictMeta (mkMeta c2Url "P" "procedure"))

def c2St : SyncState :=
  { cds := { content_fingerprints := [(c2Url, c2PriorFp)], change_history := [],
             monitoring_schedules := [] }
    sync_history := [], sync_metrics := zeroMetrics,
    last_full_sync := none, last_incremental_sync := none }

/-- Concrete environment for count witnesses: fetch fails exactly on one
url, everything else succeeds. -/
def w1UrlA : String := "https://exponenthr.com/a#t=1"

def w1UrlB : String := "https://exponenthr.com/b#t=2"

def w1Env : SyncEnv :=
  { fetch := fun u =>
      if u = w1UrlB then
        { success := false, metadata := mkMeta u "B" "faq", content := "",
          error_message := "net err" }
      else
        { success := true, metadata := mkMeta u "A" "procedure",
          content := "# T\nbody", error_message := "" }
    indexDocument := fun _ => true
    deleteDocument := fun _ => true
    hash := modelHash, now := 50, execTime := 2, batchSize := 20 }

def w1St : SyncState :=
  { cds := emptyCds, sync_history := [], sync_metrics := zeroMetrics,
    last_full_sync := none, last_incremental_sync := none }

/-- Environment whose indexer rejects every document (for the
index-failure witness). -/
def w2Env : SyncEnv :=
  { w1Env with indexDocument := fun _ => false }

/-- Obsolete-cleanup scenario: prior monitored urls {A, B, C}, current
discovery returns {A, B}. -/
def w9UrlC : String := "https://exponenthr.com/c#t=3"

def w9Fp (u : String) : ContentFingerprint :=
  createContentFingerprint modelHash 1 u "# T\nbody" []

def w9Sched : MonitoringSchedule :=
  { content_type := "procedure", frequency_hours := 6, priority := "medium",
    last_check := none, next_check := 7 }

def w9St : SyncState :=
  { cds := { content_fingerprints :=
               [(w1UrlA, w9Fp w1UrlA), (w1UrlB, w9Fp w1UrlB), (w9UrlC, w9Fp w9UrlC)]
             change_history := []
             monitoring_schedules :=
               [(w1UrlA, w9Sched), (w1UrlB, w9Sched), (w9UrlC, w9Sched)] }
    sync_history := [], sync_metrics := zeroMetrics,
    last_full_sync := none, last_incremental_sync := none }

def w9Env : SyncEnv :=
  { fetch := fun u => { success := true, metadata := mkMeta u "T" "procedure",
                        content := "# T\nbody", error_message := "" }
    indexDocument := fun _ => true
    deleteDocument := fun _ => true
    hash := modelHash, now := 50, execTime := 2, batchSize := 20 }

/-- Incremental scenario: one url due for checking, no prior
fingerprint. -/
def w10St : SyncState :=
  { cds := { content_fingerprints := [], change_history := [],
             monitoring_schedules := [(w1UrlA, w9Sched)] }
    sync_history := [], sync_metrics := zeroMetrics,
    last_full_sync := none, last_incremental_sync := none }

/-- Schedule map for the due-check witness: a mix of priorities and due
times. -/
def w8St : ChangeDetectionState :=
  { content_fingerprints := [], change_history := []
    monitoring_schedules :=
      [("a", { content_type := "t", frequency_hours := 1, priority := "low",
               last_check := none, next_check := 0 }),
       ("b", { content_type := "t", frequency_hours := 1, priority := "high",
               last_check := none, next_check := 0 }),
       ("c", { content_type := "t", frequency_hours := 1, priority := "medium",
               last_check := none, next_check := 5 }),
       ("d", { content_type := "t", frequency_hours := 1, priority := "high",
               last_check := none, next_check := 0 }),
       ("e", { content_type := "t", frequency_hours := 1, priority := "medium",
               last_check := none, next_check := 2 })] }

/-- Fingerprints for the confidence witness, with a zero old word
count. -/
def w7Old : ContentFingerprint :=
  { url := "u", content_hash := "h1", structural_hash := "s", metadata_hash := "m",
    last_modified := 0, word_count := 0, title := "t", section_count := 0,
    link_count := 0 }

def w7New : ContentFingerprint :=
  { w7Old with content_hash := "h2", word_count := 40, last_modified := 1 }

/-- Fingerprints for the no-change witness: all three hashes agree, the
statistics differ only in the timestamp. -/
def w6Old : ContentFingerprint :=
  { url := "u", content_hash := "h", structural_hash := "s", metadata_hash := "m",
    last_modified := 10, word_count := 5, title := "t", section_count := 2,
    link_count := 1 }

def w6New : ContentFingerprint := { w6Old with last_modified := 99 }

def w6St : ChangeDetectionState :=
  { content_fingerprints := [("u", w6Old)], change_history := [],
    monitoring_schedules := [] }
/-- Incremental-run analogue of `fullAccOpSync`. -/
def incAccOpSync (acc : IncRunAcc) : Prop :=
  acc.op.urls_processed = acc.total_processed ∧
  acc.op.urls_updated = acc.updated_indexed ∧
  acc.op.urls_failed = acc.errors.length ∧
  acc.op.errors = acc.errors

/-! ## Basic lemmas -/

theorem modelHash_injective : Function.Injective modelHash := by
  intro a b h
  exact congrArg String.data h

theorem alookup_cons_self {β : Type} (k : String) (v : β)
    (l : List (String × β)) : alookup k ((k, v) :: l) = some v := by
  simp [alookup]

theorem alookup_cons_ne {β : Type} (k₀ k : String) (v : β)
    (l : List (String × β)) (h : k₀ ≠ k) :
    alookup k ((k₀, v) :: l) = alookup k l := by
  simp [alookup, h]

theorem ainsert_cons_self {β : Type} (k : String) (v v₀ : β)
    (l : List (String × β)) : ainsert k v ((k, v₀) :: l) = (k, v) :: l := by
  simp [ainsert]

theorem ainsert_cons_ne {β : Type} (k₀ k : String) (v v₀ : β)
    (l : List (String × β)) (h : k₀ ≠ k) :
    ainsert k v ((k₀, v₀) :: l) = (k₀, v₀) :: ainsert k v l := by
  simp [ainsert, h]

theorem aerase_cons_self {β : Type} (k : String) (v : β)
    (l : List (String × β)) : aerase k ((k, v) :: l) = l := by
  simp [aerase]

theorem aerase_cons_ne {β : Type} (k₀ k : String) (v : β)
    (l : List (String × β)) (h : k₀ ≠ k) :
    aerase k ((k₀, v) :: l) = (k₀, v) :: aerase k l := by
  simp [aerase, h]

theorem alookup_eq_none_of_not_mem {β : Type} (k : String)
    (l : List (String × β)) (h : k ∉ l.map Prod.fst) : alookup k l = none := by
  induction l with
  | nil => simp [alookup]
  | cons p rest ih =>
    obtain ⟨k₀, v₀⟩ := p
    simp only [List.map_cons, List.mem_cons, not_or] at h
    rw [alookup_cons_ne _ _ _ _ (fun he => h.1 he.symm)]
    exact ih h.2

theorem alookup_ainsert_self {β : Type} (k : String) (v : β)
    (l : List (String × β)) : alookup k (ainsert k v l) = some v := by
  induction l with
  | nil => simp [ainsert, alookup]
  | cons p rest ih =>
    obtain ⟨k₀, v₀⟩ := p
    by_cases h : k₀ = k
    · subst h
      rw [ainsert_cons_self, alookup_cons_self]
    · rw [ainsert_cons_ne _ _ _ _ _ h, alookup_cons_ne _ _ _ _ h, ih]

theorem alookup_ainsert_ne {β : Type} (k k' : String) (v : β)
    (l : List (String × β)) (h : k' ≠ k) :
    alookup k' (ainsert k v l) = alookup k' l := by
  have hk : k ≠ k' := Ne.symm h
  induction l with
  | nil => simp [ainsert, alookup, hk]
  | cons p rest ih =>
    obtain ⟨k₀, v₀⟩ := p
    by_cases h0 : k₀ = k
    · subst h0
      rw [ainsert_cons_self, alookup_cons_ne _ _ _ _ hk,
        alookup_cons_ne _ _ _ _ hk]
    · by_cases h1 : k₀ = k'
      · subst h1
        rw [ainsert_cons_ne _ _ _ _ _ h0, alookup_cons_self, alookup_cons_self]
      · rw [ainsert_cons_ne _ _ _ _ _ h0, alookup_cons_ne _ _ _ _ h1,
          alookup_cons_ne _ _ _ _ h1, ih]

theorem alookup_aerase_ne {β : Type} (k k' : String)
    (l : List (String × β)) (h : k' ≠ k) :
    alookup k' (aerase k l) = alookup k' l := by
  induction l with
  | nil => simp [aerase]
  | cons p rest ih =>
    obtain ⟨k₀, v₀⟩ := p
    by_cases h0 : k₀ = k
    · subst h0
      rw [aerase_cons_self, alookup_cons_ne _ _ _ _ (Ne.symm h)]
    · by_cases h1 : k₀ = k'
      · subst h1
        rw [aerase_cons_ne _ _ _ _ h0, alookup_cons_self, alookup_cons_self]
      · rw [aerase_cons_ne _ _ _ _ h0, alookup_cons_ne _ _ _ _ h1,
          alookup_cons_ne _ _ _ _ h1, ih]

theorem alookup_aerase_self {β : Type} (k : String)
    (l : List (String × β)) (hnd : (l.map Prod.fst).Nodup) :
    alookup k (aerase k l) = none := by
  induction l with
  | nil => simp [aerase, alookup]
  | cons p rest ih =>
    obtain ⟨k₀, v₀⟩ := p
    simp only [List.map_cons, List.nodup_cons] at hnd
    by_cases h0 : k₀ = k
    · subst h0
      rw [aerase_cons_self]
      exact alookup_eq_none_of_not_mem _ _ hnd.1
    · rw [aerase_cons_ne _ _ _ _ h0, alookup_cons_ne _ _ _ _ h0, ih hnd.2]

theorem alookup_mem {β : Type} (k : String) (v : β) (l : List (String × β))
    (h : alookup k l = some v) : (k, v) ∈ l := by
  induction l with
  | nil => simp [alookup] at h
  | cons p rest ih =>
    obtain ⟨k₀, v₀⟩ := p
    by_cases hk : k₀ = k
    · subst hk
      rw [alookup_cons_self] at h
      cases h
      simp
    · rw [alookup_cons_ne _ _ _ _ hk] at h
      exact List.mem_cons_of_mem _ (ih h)

theorem alookup_eq_of_mem_nodup {β : Type} (k : String) (v : β)
    (l : List (String × β)) (hnd : (l.map Prod.fst).Nodup)
    (h : (k, v) ∈ l) : alookup k l = some v := by
  induction l with
  | nil => simp at h
  | cons p rest ih =>
    obtain ⟨k₀, v₀⟩ := p
    simp only [List.map_cons, List.nodup_cons] at hnd
    rcases List.mem_cons.1 h with he | hm
    · cases he
      rw [alookup_cons_self]
    · have hne : k₀ ≠ k := by
        intro heq
        subst heq
        exact hnd.1 (List.mem_map.2 ⟨(k₀, v), hm, rfl⟩)
      rw [alookup_cons_ne _ _ _ _ hne, ih hnd.2 hm]

theorem keys_ainsert {β : Type} (k : String) (v : β) (l : List (String × β)) :
    ∃ extra, (ainsert k v l).map Prod.fst = l.map Prod.fst ++ extra ∧
      ∀ x ∈ extra, x = k := by
  induction l with
  | nil => exact ⟨[k], by simp [ainsert], by simp⟩
  | cons p rest ih =>
    obtain ⟨k₀, v₀⟩ := p
    by_cases hk : k₀ = k
    · subst hk
      exact ⟨[], by rw [ainsert_cons_self]; simp, by simp⟩
    · obtain ⟨extra, he, hall⟩ := ih
      exact ⟨extra, by rw [ainsert_cons_ne _ _ _ _ _ hk]; simp [he], hall⟩

theorem keys_ainsert_nodup {β : Type} (k : String) (v : β)
    (l : List (String × β)) (hnd : (l.map Prod.fst).Nodup) :
    ((ainsert k v l).map Prod.fst).Nodup := by
  induction l with
  | nil => simp [ainsert]
  | cons p rest ih =>
    obtain ⟨k₀, v₀⟩ := p
    simp only [List.map_cons, List.nodup_cons] at hnd
    by_cases h0 : k₀ = k
    · subst h0
      rw [ainsert_cons_self]
      simp only [List.map_cons, List.nodup_cons]
      exact hnd
    · obtain ⟨extra, he, hall⟩ := keys_ainsert k v rest
      rw [ainsert_cons_ne _ _ _ _ _ h0]
      simp only [List.map_cons, List.nodup_cons, he]
      refine ⟨?_, he ▸ ih hnd.2⟩
      simp only [List.mem_append]
      rintro (hmem | hmem)
      · exact hnd.1 hmem
      · exact h0 (hall _ hmem)

theorem mem_keys_of_mem_keys_aerase {β : Type} (k x : String)
    (l : List (String × β)) (h : x ∈ (aerase k l).map Prod.fst) :
    x ∈ l.map Prod.fst := by
  induction l with
  | nil => simp [aerase] at h
  | cons p rest ih =>
    obtain ⟨k₀, v₀⟩ := p
    by_cases h0 : k₀ = k
    · subst h0
      rw [aerase_cons_self] at h
      simp [h]
    · rw [aerase_cons_ne _ _ _ _ h0] at h
      simp only [List.map_cons, List.mem_cons] at h ⊢
      rcases h with h | h
      · exact Or.inl h
      · exact Or.inr (ih h)

theorem keys_aerase_nodup {β : Type} (k : String)
    (l : List (String × β)) (hnd : (l.map Prod.fst).Nodup) :
    ((aerase k l).map Prod.fst).Nodup := by
  induction l with
  | nil => simp [aerase]
  | cons p rest ih =>
    obtain ⟨k₀, v₀⟩ := p
    simp only [List.map_cons, List.nodup_cons] at hnd
    by_cases h0 : k₀ = k
    · subst h0
      rw [aerase_cons_self]
      exact hnd.2
    · rw [aerase_cons_ne _ _ _ _ h0]
      simp only [List.map_cons, List.nodup_cons]
      exact ⟨fun hm => hnd.1 (mem_keys_of_mem_keys_aerase _ _ _ hm), ih hnd.2⟩

/-! ## C5: monitoring schedule registration -/

/-- C5 (counterexample): registering a URL with an unknown content type
stores `frequency_hours = 24`, not the claimed fallback of 48
(`default_frequencies.get(content_type, 24)`; the table's own
`documentation` entry is 48, but it is not the fallback). -/
theorem registerUnknownType_frequency_not_48 :
    ((alookup "u" (setupMonitoringSchedule 0 "u" "widget" "medium"
        emptyCds).monitoring_schedules).map MonitoringSchedule.frequency_hours
      = some 24) ∧
    ¬ ((alookup "u" (setupMonitoringSchedule 0 "u" "widget" "medium"
        emptyCds).monitoring_schedules).map MonitoringSchedule.frequency_hours
      = some 48) := by
  decide

/-- C5 (amended): for every URL, content type and priority, registration
stores an entry whose `frequency_hours` is the base-table value
(procedure=6, reference=24, overview=72, faq=12, documentation=48, and 24
for any unknown content type) adjusted by priority (`max(base//2,1)` for
high, `base*2` for low, unchanged otherwise), with
`next_check = now + frequency_hours` and no `last_check`; in particular
`procedure` at `high` priority yields `frequency_hours = 3`. -/
theorem setupMonitoringSchedule_spec (now : Int) (url ct p : String)
    (st : ChangeDetectionState) :
    (alookup url (setupMonitoringSchedule now url ct p st).monitoring_schedules
      = some { content_type := ct
               frequency_hours := specAdjustedFrequency ct p
               priority := p
               last_check := none
               next_check := now + (specAdjustedFrequency ct p : Int) }) ∧
    specAdjustedFrequency "procedure" "high" = 3 := by
  constructor
  · have hbase : (alookup ct defaultFrequencies).getD 24 = specBaseFrequency ct := by
      simp only [defaultFrequencies, alookup, specBaseFrequency]
      split_ifs <;> rfl
    simp only [setupMonitoringSchedule]
    rw [alookup_ainsert_self]
    simp [hbase, specAdjustedFrequency]
  · decide

/-! ## C6: no-change classification refreshes the fingerprint -/

/-- C6: when the stored and the new fingerprint agree on all three
hashes, `detect_changes` returns no event, appends nothing to the change
history, leaves the schedules untouched, and replaces the stored
fingerprint by the new one with `last_modified` overwritten to the old
value (all other fields come from the new fingerprint); fingerprints of
other URLs are unchanged. -/
theorem detectChanges_no_change_frame (now : Int) (url : String)
    (oldFp newFp : ContentFingerprint) (st : ChangeDetectionState)
    (hfound : alookup url st.content_fingerprints = some oldFp)
    (hc : oldFp.content_hash = newFp.content_hash)
    (hs : oldFp.structural_hash = newFp.structural_hash)
    (hm : oldFp.metadata_hash = newFp.metadata_hash) :
    (detectChanges now url newFp st).1 = none ∧
    (detectChanges now url newFp st).2.change_history = st.change_history ∧
    (detectChanges now url newFp st).2.monitoring_schedules
      = st.monitoring_schedules ∧
    alookup url (detectChanges now url newFp st).2.content_fingerprints
      = some { newFp with last_modified := oldFp.last_modified } ∧
    (∀ u, u ≠ url →
      alookup u (detectChanges now url newFp st).2.content_fingerprints
        = alookup u st.content_fingerprints) := by
  have hrun : detectChanges now url newFp st =
      (none,
        { st with
          content_fingerprints :=
            ainsert url { newFp with last_modified := oldFp.last_modified }
              st.content_fingerprints }) := by
    simp only [detectChanges, hfound]
    simp [hc, hs, hm]
  rw [hrun]
  exact ⟨rfl, rfl, rfl, alookup_ainsert_self _ _ _,
    fun u hu => alookup_ainsert_ne _ _ _ _ hu⟩

/-- C6 (witness): concrete fingerprints differing only in the timestamp
statistics. -/
theorem detectChanges_no_change_frame_witness :
    (alookup "u" w6St.content_fingerprints = some w6Old ∧
      w6Old.content_hash = w6New.content_hash ∧
      w6Old.structural_hash = w6New.structural_hash ∧
      w6Old.metadata_hash = w6New.metadata_hash) ∧
    ((detectChanges 99 "u" w6New w6St).1 = none ∧
     (detectChanges 99 "u" w6New w6St).2.change_history = w6St.change_history ∧
     (detectChanges 99 "u" w6New w6St).2.monitoring_schedules
       = w6St.monitoring_schedules ∧
     alookup "u" (detectChanges 99 "u" w6New w6St).2.content_fingerprints
       = some { w6New with last_modified := w6Old.last_modified } ∧
     (∀ u, u ≠ "u" →
       alookup u (detectChanges 99 "u" w6New w6St).2.content_fingerprints
         = alookup u w6St.content_fingerprints)) :=
  ⟨⟨by decide, by decide, by decide, by decide⟩,
    detectChanges_no_change_frame 99 "u" w6Old w6New w6St (by decide)
      (by decide) (by decide) (by decide)⟩

/-! ## C7: confidence bounds and fallback -/

/-- C7: for any fingerprints and any non-empty set of detected change
categories the computed confidence lies in `[0, 1]` (zero old counts
included, thanks to the `max(x, 1)` divisors), and a failing confidence
computation is replaced by the default `0.5` instead of propagating. -/
theorem qmin_le_right (a b : ℚ) : qmin a b ≤ b := by
  unfold qmin
  split_ifs with h
  · exact h
  · exact le_refl b

theorem qmin_nonneg (a b : ℚ) (ha : 0 ≤ a) (hb : 0 ≤ b) : 0 ≤ qmin a b := by
  unfold qmin
  split_ifs <;> assumption

theorem le_qmax_left {a b : ℚ} (c : ℚ) (h : a ≤ b) : a ≤ qmax b c := by
  unfold qmax
  split_ifs with hbc
  · exact le_trans h hbc
  · exact h

theorem changeConfidence_bounds_and_fallback (oldFp newFp : ContentFingerprint)
    (changes : List String) (hne : changes ≠ []) :
    (0 ≤ calcChangeConfidence oldFp newFp changes ∧
      calcChangeConfidence oldFp newFp changes ≤ 1) ∧
    (∀ (body : Except String ℚ) (e : String),
      body = .error e → confidenceWithFallback body = 1 / 2) := by
  refine ⟨?_, ?_⟩
  · simp only [calcChangeConfidence, confidenceWithFallback,
      calcChangeConfidenceBody]
    refine ⟨qmin_nonneg _ _ ?_ zero_le_one, qmin_le_right _ _⟩
    split_ifs <;>
      (repeat
        first
          | exact le_refl (0 : ℚ)
          | apply le_qmax_left)
  · intro body e h
    subst h
    rfl

/-- C7 (witness): a content change against an old fingerprint with zero
word count. -/
theorem changeConfidence_bounds_and_fallback_witness :
    (["content"] : List String) ≠ [] ∧
    ((0 ≤ calcChangeConfidence w7Old w7New ["content"] ∧
       calcChangeConfidence w7Old w7New ["content"] ≤ 1) ∧
     (∀ (body : Except String ℚ) (e : String),
       body = .error e → confidenceWithFallback body = 1 / 2)) :=
  ⟨by decide,
    changeConfidence_bounds_and_fallback w7Old w7New ["content"] (by decide)⟩

/-! ## C4: first-sight and appended-heading scenario -/

set_option maxRecDepth 8192 in
/-- C4 (counterexample): re-fingerprinting the same content with exactly
one appended `## ` heading section increases `section_count` by 2, not by
1 — `section_count = content.count('\n##') + content.count('\n#')`, and
the appended `"\n## B"` contains one occurrence of each pattern. -/
theorem appendedHeading_sectionCount_not_plus_one :
    exContentNew = exContentOld ++ "\n## B" ∧
    exFpOld = createContentFingerprint modelHash 100 exUrl exContentOld exMetadata ∧
    exFpNew = createContentFingerprint modelHash 200 exUrl exContentNew exMetadata ∧
    exFpNew.section_count = exFpOld.section_count + 2 ∧
    ¬ (exFpNew.section_count = exFpOld.section_count + 1) := by
  with_unfolding_all decide

/-- C4 (amended): a document first seen yields a `new` event with
confidence 1.0 and registers the fingerprint; re-fingerprinting the same
content with one appended `## ` heading section yields `section_count`
exactly 2 larger and a `structure` event with confidence
`min(2 / max(old_section_count, 1) × 3, 1.0) = 1.0`. -/
theorem appendedHeading_newThenStructure :
    ((detectChanges 100 exUrl exFpOld emptyCds).1.map
        (fun e => (e.change_type, e.confidence_score)) = some ("new", 1)) ∧
    alookup exUrl exSt1.content_fingerprints = some exFpOld ∧
    ((detectChanges 200 exUrl exFpNew exSt1).1.map
        (fun e => (e.change_type, e.confidence_score)) = some ("structure", 1)) ∧
    exFpNew.section_count = exFpOld.section_count + 2 := by
  with_unfolding_all decide

/-! ## C8: due-check ordering -/

theorem insSorted_perm {α : Type} (key : α → Nat) (x : α) (l : List α) :
    (insSorted key x l).Perm (x :: l) := by
  induction l with
  | nil => simp [insSorted]
  | cons y ys ih =>
    by_cases h : key x ≤ key y
    · simp [insSorted, h]
    · simp only [insSorted, if_neg h]
      exact (ih.cons y).trans (List.Perm.swap x y ys)

theorem sortByKey_perm {α : Type} (key : α → Nat) (l : List α) :
    (sortByKey key l).Perm l := by
  induction l with
  | nil => simp [sortByKey]
  | cons x xs ih =>
    simp only [sortByKey]
    exact (insSorted_perm key x _).trans (ih.cons x)

theorem insSorted_pairwise {α : Type} (key : α → Nat) (x : α) (l : List α)
    (h : l.Pairwise (fun a b => key a ≤ key b)) :
    (insSorted key x l).Pairwise (fun a b => key a ≤ key b) := by
  induction l with
  | nil => simp [insSorted]
  | cons y ys ih =>
    rcases List.pairwise_cons.1 h with ⟨hy, hys⟩
    by_cases hxy : key x ≤ key y
    · simp only [insSorted, if_pos hxy]
      refine List.Pairwise.cons ?_ h
      intro z hz
      rcases List.mem_cons.1 hz with rfl | hz
      · exact hxy
      · exact le_trans hxy (hy z hz)
    · simp only [insSorted, if_neg hxy]
      refine List.Pairwise.cons ?_ (ih hys)
      intro z hz
      rcases List.mem_cons.1 ((insSorted_perm key x ys).mem_iff.1 hz) with rfl | hz'
      · omega
      · exact hy z hz'

theorem sortByKey_pairwise {α : Type} (key : α → Nat) (l : List α) :
    (sortByKey key l).Pairwise (fun a b => key a ≤ key b) := by
  induction l with
  | nil => simp [sortByKey]
  | cons x xs ih =>
    simp only [sortByKey]
    exact insSorted_pairwise key x _ ih

theorem insSorted_filter_key {α : Type} (key : α → Nat) (x : α) (l : List α)
    (r : Nat) :
    (insSorted key x l).filter (fun z => key z == r) =
      if key x = r then x :: l.filter (fun z => key z == r)
      else l.filter (fun z => key z == r) := by
  induction l with
  | nil =>
    by_cases hr : key x = r <;> simp [insSorted, hr]
  | cons y ys ih =>
    by_cases hxy : key x ≤ key y
    · rw [show insSorted key x (y :: ys) = x :: y :: ys from by
        simp [insSorted, hxy]]
      by_cases hr : key x = r <;> by_cases hyr : key y = r <;>
        simp [List.filter_cons, hr, hyr]
    · rw [show insSorted key x (y :: ys) = y :: insSorted key x ys from by
        simp [insSorted, hxy]]
      by_cases hr : key x = r
      · have hyr : ¬ (key y = r) := by omega
        simp [List.filter_cons, hr, hyr, ih]
      · by_cases hyr : key y = r <;> simp [List.filter_cons, hr, hyr, ih]

theorem sortByKey_filter_key {α : Type} (key : α → Nat) (l : List α) (r : Nat) :
    (sortByKey key l).filter (fun z => key z == r)
      = l.filter (fun z => key z == r) := by
  induction l with
  | nil => simp [sortByKey]
  | cons x xs ih =>
    simp only [sortByKey]
    rw [insSorted_filter_key]
    by_cases hr : key x = r <;> simp [List.filter_cons, hr, ih]

theorem insSorted_congr {α : Type} (k1 k2 : α → Nat) (x : α) (l : List α)
    (hx : k1 x = k2 x) (hl : ∀ y ∈ l, k1 y = k2 y) :
    insSorted k1 x l = insSorted k2 x l := by
  induction l with
  | nil => simp [insSorted]
  | cons y ys ih =>
    have hy := hl y (by simp)
    have hys : ∀ z ∈ ys, k1 z = k2 z := fun z hz => hl z (by simp [hz])
    simp only [insSorted]
    rw [hx, hy, ih hys]

theorem sortByKey_congr {α : Type} (k1 k2 : α → Nat) (l : List α)
    (hl : ∀ y ∈ l, k1 y = k2 y) : sortByKey k1 l = sortByKey k2 l := by
  induction l with
  | nil => rfl
  | cons x xs ih =>
    simp only [sortByKey]
    rw [ih (fun z hz => hl z (by simp [hz]))]
    refine insSorted_congr k1 k2 x _ (hl x (by simp)) ?_
    intro z hz
    exact hl z (by simp [(sortByKey_perm k2 xs).mem_iff.1 hz])

theorem priorityRank_eq_spec (p : String)
    (hp : p = "high" ∨ p = "medium" ∨ p = "low") :
    priorityRank p = specPriorityRank p := by
  rcases hp with rfl | rfl | rfl <;> rfl

theorem scheduleRank_eq_spec (st : ChangeDetectionState) (u : String)
    (hp : ∀ q ∈ st.monitoring_schedules,
      q.2.priority = "high" ∨ q.2.priority = "medium" ∨ q.2.priority = "low") :
    scheduleRank st u = specPriorityRankOf st u := by
  unfold scheduleRank specPriorityRankOf
  cases halo : alookup u st.monitoring_schedules with
  | none => rfl
  | some e => exact priorityRank_eq_spec _ (hp (u, e) (alookup_mem _ _ _ halo))

/-- C8: the due-check query returns exactly the URLs whose
`next_check ≤ now` — a permutation of the due sublist of the schedule
map — ordered ascending by the claim's priority rank (high = 0,
medium = 1, low = 2), and for every rank value the subsequence of that
rank equals the due sublist of that rank in map (discovery) order, i.e.
ties keep discovery order.  Hypothesis: the schedule map only holds the
three claimed priorities (the claim assigns ranks to nothing else). -/
theorem getUrlsDueForCheck_ordering (now : Int) (st : ChangeDetectionState)
    (hp : ∀ q ∈ st.monitoring_schedules,
      q.2.priority = "high" ∨ q.2.priority = "medium" ∨ q.2.priority = "low") :
    ((getUrlsDueForCheck now st).Perm
      ((st.monitoring_schedules.filter
        (fun p => p.2.next_check ≤ now)).map Prod.fst)) ∧
    (∀ u, u ∈ getUrlsDueForCheck now st ↔
      ∃ e, (u, e) ∈ st.monitoring_schedules ∧ e.next_check ≤ now) ∧
    ((getUrlsDueForCheck now st).Pairwise
      (fun a b => specPriorityRankOf st a ≤ specPriorityRankOf st b)) ∧
    (∀ r, (getUrlsDueForCheck now st).filter
        (fun u => specPriorityRankOf st u == r)
      = ((st.monitoring_schedules.filter
            (fun p => p.2.next_check ≤ now)).map Prod.fst).filter
          (fun u => specPriorityRankOf st u == r)) := by
  have hres : getUrlsDueForCheck now st
      = sortByKey (specPriorityRankOf st)
          ((st.monitoring_schedules.filter
            (fun p => p.2.next_check ≤ now)).map Prod.fst) := by
    unfold getUrlsDueForCheck
    exact sortByKey_congr _ _ _ (fun u _ => scheduleRank_eq_spec st u hp)
  refine ⟨?_, ?_, ?_, ?_⟩
  · rw [hres]
    exact sortByKey_perm _ _
  · intro u
    rw [hres, (sortByKey_perm _ _).mem_iff]
    simp only [List.mem_map, List.mem_filter]
    constructor
    · rintro ⟨⟨u', e⟩, ⟨hmem, hle⟩, rfl⟩
      exact ⟨e, hmem, by simpa using hle⟩
    · rintro ⟨e, hmem, hle⟩
      exact ⟨(u, e), ⟨hmem, by simpa using hle⟩, rfl⟩
  · rw [hres]
    exact sortByKey_pairwise _ _
  · intro r
    rw [hres]
    exact sortByKey_filter_key _ _ r

/-- C8 (witness): a five-entry schedule; at `now = 3` the due urls are
returned high-first, ties in registration order. -/
theorem getUrlsDueForCheck_ordering_witness :
    (∀ q ∈ w8St.monitoring_schedules,
      q.2.priority = "high" ∨ q.2.priority = "medium" ∨ q.2.priority = "low") ∧
    getUrlsDueForCheck 3 w8St = ["b", "d", "e", "a"] ∧
    (((getUrlsDueForCheck 3 w8St).Perm
      ((w8St.monitoring_schedules.filter
        (fun p => p.2.next_check ≤ (3 : Int))).map Prod.fst)) ∧
    (∀ u, u ∈ getUrlsDueForCheck 3 w8St ↔
      ∃ e, (u, e) ∈ w8St.monitoring_schedules ∧ e.next_check ≤ 3) ∧
    ((getUrlsDueForCheck 3 w8St).Pairwise
      (fun a b => specPriorityRankOf w8St a ≤ specPriorityRankOf w8St b)) ∧
    (∀ r, (getUrlsDueForCheck 3 w8St).filter
        (fun u => specPriorityRankOf w8St u == r)
      = ((w8St.monitoring_schedules.filter
            (fun p => p.2.next_check ≤ (3 : Int))).map Prod.fst).filter
          (fun u => specPriorityRankOf w8St u == r))) :=
  ⟨by decide, by decide, getUrlsDueForCheck_ordering 3 w8St (by decide)⟩

/-! ## Per-step lemmas for the full-sync batch loop -/

theorem detectChanges_schedules (now : Int) (url : String)
    (fp : ContentFingerprint) (st : ChangeDetectionState) :
    (detectChanges now url fp st).2.monitoring_schedules
      = st.monitoring_schedules := by
  cases h : alookup url st.content_fingerprints with
  | none => simp only [detectChanges, h]
  | some oldFp =>
    simp only [detectChanges, h]
    repeat' split
    all_goals rfl

theorem detectChanges_fps_lookup_ne (now : Int) (url : String)
    (fp : ContentFingerprint) (st : ChangeDetectionState) (w : String)
    (hw : w ≠ url) :
    alookup w (detectChanges now url fp st).2.content_fingerprints
      = alookup w st.content_fingerprints := by
  cases h : alookup url st.content_fingerprints with
  | none =>
    simp only [detectChanges, h]
    exact alookup_ainsert_ne _ _ _ _ hw
  | some oldFp =>
    simp only [detectChanges, h]
    repeat' split
    all_goals exact alookup_ainsert_ne _ _ _ _ hw

theorem detectChanges_fps_keys (now : Int) (url : String)
    (fp : ContentFingerprint) (st : ChangeDetectionState) :
    ∃ extra,
      (detectChanges now url fp st).2.content_fingerprints.map Prod.fst
        = st.content_fingerprints.map Prod.fst ++ extra ∧
      ∀ x ∈ extra, x = url := by
  cases h : alookup url st.content_fingerprints with
  | none =>
    simp only [detectChanges, h]
    exact keys_ainsert url _ _
  | some oldFp =>
    simp only [detectChanges, h]
    repeat' split
    all_goals exact keys_ainsert url _ _

theorem detectChanges_fps_nodup (now : Int) (url : String)
    (fp : ContentFingerprint) (st : ChangeDetectionState)
    (hnd : (st.content_fingerprints.map Prod.fst).Nodup) :
    ((detectChanges now url fp st).2.content_fingerprints.map Prod.fst).Nodup := by
  cases h : alookup url st.content_fingerprints with
  | none =>
    simp only [detectChanges, h]
    exact keys_ainsert_nodup _ _ _ hnd
  | some oldFp =>
    simp only [detectChanges, h]
    repeat' split
    all_goals exact keys_ainsert_nodup _ _ _ hnd

theorem setupMonitoringSchedule_fps (now : Int) (url ct p : String)
    (st : ChangeDetectionState) :
    (setupMonitoringSchedule now url ct p st).content_fingerprints
      = st.content_fingerprints := rfl

theorem setupMonitoringSchedule_sched_lookup_ne (now : Int) (url ct p : String)
    (st : ChangeDetectionState) (w : String) (hw : w ≠ url) :
    alookup w (setupMonitoringSchedule now url ct p st).monitoring_schedules
      = alookup w st.monitoring_schedules :=
  alookup_ainsert_ne _ _ _ _ hw

theorem setupMonitoringSchedule_sched_nodup (now : Int) (url ct p : String)
    (st : ChangeDetectionState)
    (hnd : (st.monitoring_schedules.map Prod.fst).Nodup) :
    ((setupMonitoringSchedule now url ct p st).monitoring_schedules.map
      Prod.fst).Nodup :=
  keys_ainsert_nodup _ _ _ hnd

theorem processUrlFull_counts_log (env : SyncEnv) (acc : BatchAcc) (u : String) :
    (processUrlFull env acc u).processed = acc.processed + 1 ∧
    (processUrlFull env acc u).errors
      = acc.errors ++ (batchErrOf env u).toList ∧
    (processUrlFull env acc u).log.indexCalls
      = acc.log.indexCalls
        ++ (if (env.fetch u).success then [docOf env u] else []) ∧
    (processUrlFull env acc u).log.scheduleSetups
      = acc.log.scheduleSetups
        ++ (if (env.fetch u).success && env.indexDocument (docOf env u)
            then [u] else []) ∧
    (processUrlFull env acc u).log.blobStores
      = acc.log.blobStores
        ++ (if (env.fetch u).success && env.indexDocument (docOf env u)
            then [u] else []) ∧
    (processUrlFull env acc u).log.deleteCalls = acc.log.deleteCalls := by
  cases hf : (env.fetch u).success with
  | false =>
    simp [processUrlFull, hf, batchErrOf, scrapeFailMsg]
  | true =>
    cases hi : env.indexDocument (docOf env u) with
    | false =>
      cases hce : (detectChanges env.now u
          (createContentFingerprint env.hash env.now u (env.fetch u).content
            (asdictMeta (env.fetch u).metadata)) acc.cds).1 <;>
        simp [processUrlFull, hf, hi, hce, batchErrOf]
    | true =>
      cases hce : (detectChanges env.now u
          (createContentFingerprint env.hash env.now u (env.fetch u).content
            (asdictMeta (env.fetch u).metadata)) acc.cds).1 with
      | none => simp [processUrlFull, hf, hi, hce, batchErrOf]
      | some ev =>
        by_cases hn : ev.change_type = "new" <;>
          simp [processUrlFull, hf, hi, hce, batchErrOf, hn]

theorem processUrlFull_sched_lookup (env : SyncEnv) (acc : BatchAcc)
    (u w : String)
    (h : u = w → (env.fetch u).success = true →
      env.indexDocument (docOf env u) = false) :
    alookup w (processUrlFull env acc u).cds.monitoring_schedules
      = alookup w acc.cds.monitoring_schedules := by
  cases hf : (env.fetch u).success with
  | false => simp [processUrlFull, hf]
  | true =>
    cases hi : env.indexDocument (docOf env u) with
    | false =>
      cases hce : (detectChanges env.now u
          (createContentFingerprint env.hash env.now u (env.fetch u).content
            (asdictMeta (env.fetch u).metadata)) acc.cds).1 <;>
        simp [processUrlFull, hf, hi, hce, detectChanges_schedules]
    | true =>
      have hw : w ≠ u := by
        intro he
        rw [h he.symm hf] at hi
        exact Bool.false_ne_true hi
      cases hce : (detectChanges env.now u
          (createContentFingerprint env.hash env.now u (env.fetch u).content
            (asdictMeta (env.fetch u).metadata)) acc.cds).1 with
      | none =>
        simp [processUrlFull, hf, hi, hce]
        rw [setupMonitoringSchedule_sched_lookup_ne _ _ _ _ _ _ hw,
          detectChanges_schedules]
      | some ev =>
        by_cases hn : ev.change_type = "new" <;>
          · simp [processUrlFull, hf, hi, hce, hn]
            rw [setupMonitoringSchedule_sched_lookup_ne _ _ _ _ _ _ hw,
              detectChanges_schedules]

theorem processUrlFull_fps_lookup_ne (env : SyncEnv) (acc : BatchAcc)
    (u w : String) (hw : w ≠ u) :
    alookup w (processUrlFull env acc u).cds.content_fingerprints
      = alookup w acc.cds.content_fingerprints := by
  cases hf : (env.fetch u).success with
  | false => simp [processUrlFull, hf]
  | true =>
    cases hi : env.indexDocument (docOf env u) with
    | false =>
      cases hce : (detectChanges env.now u
          (createContentFingerprint env.hash env.now u (env.fetch u).content
            (asdictMeta (env.fetch u).metadata)) acc.cds).1 <;>
        simp [processUrlFull, hf, hi, hce,
          detectChanges_fps_lookup_ne _ _ _ _ _ hw]
    | true =>
      cases hce : (detectChanges env.now u
          (createContentFingerprint env.hash env.now u (env.fetch u).content
            (asdictMeta (env.fetch u).metadata)) acc.cds).1 with
      | none =>
        simp [processUrlFull, hf, hi, hce]
        rw [setupMonitoringSchedule_fps, detectChanges_fps_lookup_ne _ _ _ _ _ hw]
      | some ev =>
        by_cases hn : ev.change_type = "new" <;>
          · simp [processUrlFull, hf, hi, hce, hn]
            rw [setupMonitoringSchedule_fps,
              detectChanges_fps_lookup_ne _ _ _ _ _ hw]

theorem processUrlFull_fps_keys (env : SyncEnv) (acc : BatchAcc) (u : String) :
    ∃ extra,
      (processUrlFull env acc u).cds.content_fingerprints.map Prod.fst
        = acc.cds.content_fingerprints.map Prod.fst ++ extra ∧
      ∀ x ∈ extra, x = u := by
  cases hf : (env.fetch u).success with
  | false => exact ⟨[], by simp [processUrlFull, hf], by simp⟩
  | true =>
    obtain ⟨extra, he, hall⟩ := detectChanges_fps_keys env.now u
      (createContentFingerprint env.hash env.now u (env.fetch u).content
        (asdictMeta (env.fetch u).metadata)) acc.cds
    refine ⟨extra, ?_, hall⟩
    cases hi : env.indexDocument (docOf env u) with
    | false =>
      cases hce : (detectChanges env.now u
          (createContentFingerprint env.hash env.now u (env.fetch u).content
            (asdictMeta (env.fetch u).metadata)) acc.cds).1 <;>
        simp [processUrlFull, hf, hi, hce] <;> exact he
    | true =>
      cases hce : (detectChanges env.now u
          (createContentFingerprint env.hash env.now u (env.fetch u).content
            (asdictMeta (env.fetch u).metadata)) acc.cds).1 with
      | none =>
        simp only [processUrlFull, hf, hi, hce, setupMonitoringSchedule_fps]
        exact he
      | some ev =>
        by_cases hn : ev.change_type = "new" <;>
          · simp only [processUrlFull, hf, hi, hce, hn,
              setupMonitoringSchedule_fps]
            exact he

theorem processUrlFull_fps_nodup (env : SyncEnv) (acc : BatchAcc) (u : String)
    (hnd : (acc.cds.content_fingerprints.map Prod.fst).Nodup) :
    ((processUrlFull env acc u).cds.content_fingerprints.map Prod.fst).Nodup := by
  cases hf : (env.fetch u).success with
  | false => simpa [processUrlFull, hf] using hnd
  | true =>
    have hd := detectChanges_fps_nodup env.now u
      (createContentFingerprint env.hash env.now u (env.fetch u).content
        (asdictMeta (env.fetch u).metadata)) acc.cds hnd
    cases hi : env.indexDocument (docOf env u) with
    | false =>
      cases hce : (detectChanges env.now u
          (createContentFingerprint env.hash env.now u (env.fetch u).content
            (asdictMeta (env.fetch u).metadata)) acc.cds).1 <;>
        simp [processUrlFull, hf, hi, hce] <;> exact hd
    | true =>
      cases hce : (detectChanges env.now u
          (createContentFingerprint env.hash env.now u (env.fetch u).content
            (asdictMeta (env.fetch u).metadata)) acc.cds).1 with
      | none =>
        simp only [processUrlFull, hf, hi, hce, setupMonitoringSchedule_fps]
        exact hd
      | some ev =>
        by_cases hn : ev.change_type = "new" <;>
          · simp only [processUrlFull, hf, hi, hce, hn,
              setupMonitoringSchedule_fps]
            exact hd

theorem processUrlFull_sched_nodup (env : SyncEnv) (acc : BatchAcc) (u : String)
    (hnd : (acc.cds.monitoring_schedules.map Prod.fst).Nodup) :
    ((processUrlFull env acc u).cds.monitoring_schedules.map Prod.fst).Nodup := by
  cases hf : (env.fetch u).success with
  | false => simpa [processUrlFull, hf] using hnd
  | true =>
    have hd : ((detectChanges env.now u
        (createContentFingerprint env.hash env.now u (env.fetch u).content
          (asdictMeta (env.fetch u).metadata))
        acc.cds).2.monitoring_schedules.map Prod.fst).Nodup := by
      rw [detectChanges_schedules]
      exact hnd
    cases hi : env.indexDocument (docOf env u) with
    | false =>
      cases hce : (detectChanges env.now u
          (createContentFingerprint env.hash env.now u (env.fetch u).content
            (asdictMeta (env.fetch u).metadata)) acc.cds).1 <;>
        simp [processUrlFull, hf, hi, hce] <;> exact hd
    | true =>
      cases hce : (detectChanges env.now u
          (createContentFingerprint env.hash env.now u (env.fetch u).content
            (asdictMeta (env.fetch u).metadata)) acc.cds).1 with
      | none =>
        simp only [processUrlFull, hf, hi, hce]
        exact setupMonitoringSchedule_sched_nodup _ _ _ _ _ hd
      | some ev =>
        by_cases hn : ev.change_type = "new" <;>
          · simp only [processUrlFull, hf, hi, hce, hn]
            exact setupMonitoringSchedule_sched_nodup _ _ _ _ _ hd

/-! ## Batch fold lemmas -/

theorem batch_foldl_spec (env : SyncEnv) (urls : List String) :
    ∀ acc : BatchAcc,
      (urls.foldl (processUrlFull env) acc).processed
        = acc.processed + urls.length ∧
      (urls.foldl (processUrlFull env) acc).errors
        = acc.errors ++ urls.filterMap (batchErrOf env) ∧
      (urls.foldl (processUrlFull env) acc).log.indexCalls
        = acc.log.indexCalls
          ++ (urls.filter (fun u => (env.fetch u).success)).map (docOf env) ∧
      (urls.foldl (processUrlFull env) acc).log.scheduleSetups
        = acc.log.scheduleSetups
          ++ urls.filter
              (fun u => (env.fetch u).success && env.indexDocument (docOf env u)) ∧
      (urls.foldl (processUrlFull env) acc).log.blobStores
        = acc.log.blobStores
          ++ urls.filter
              (fun u => (env.fetch u).success && env.indexDocument (docOf env u)) ∧
      (urls.foldl (processUrlFull env) acc).log.deleteCalls
        = acc.log.deleteCalls := by
  induction urls with
  | nil => intro acc; simp
  | cons u us ih =>
    intro acc
    simp only [List.foldl_cons]
    obtain ⟨p1, p2, p3, p4, p5, p6⟩ := processUrlFull_counts_log env acc u
    obtain ⟨q1, q2, q3, q4, q5, q6⟩ := ih (processUrlFull env acc u)
    refine ⟨?_, ?_, ?_, ?_, ?_, ?_⟩
    · rw [q1, p1, List.length_cons]
      omega
    · rw [q2, p2, List.filterMap_cons]
      cases batchErrOf env u <;> simp
    · rw [q3, p3, List.filter_cons]
      cases hf : (env.fetch u).success <;> simp [hf]
    · rw [q4, p4, List.filter_cons]
      cases hf : (env.fetch u).success <;>
        cases hi : env.indexDocument (docOf env u) <;> simp [hf, hi]
    · rw [q5, p5, List.filter_cons]
      cases hf : (env.fetch u).success <;>
        cases hi : env.indexDocument (docOf env u) <;> simp [hf, hi]
    · rw [q6, p6]

theorem batch_foldl_sched_lookup (env : SyncEnv) (urls : List String) :
    ∀ (acc : BatchAcc) (w : String),
      (∀ u ∈ urls, u = w → (env.fetch u).success = true →
        env.indexDocument (docOf env u) = false) →
      alookup w (urls.foldl (processUrlFull env) acc).cds.monitoring_schedules
        = alookup w acc.cds.monitoring_schedules := by
  induction urls with
  | nil => intro acc w _; rfl
  | cons u us ih =>
    intro acc w h
    simp only [List.foldl_cons]
    rw [ih _ w (fun v hv => h v (List.mem_cons_of_mem u hv))]
    exact processUrlFull_sched_lookup env acc u w (h u (by simp))

theorem batch_foldl_fps_lookup (env : SyncEnv) (urls : List String) :
    ∀ (acc : BatchAcc) (w : String), w ∉ urls →
      alookup w (urls.foldl (processUrlFull env) acc).cds.content_fingerprints
        = alookup w acc.cds.content_fingerprints := by
  induction urls with
  | nil => intro acc w _; rfl
  | cons u us ih =>
    intro acc w hw
    simp only [List.mem_cons, not_or] at hw
    simp only [List.foldl_cons]
    rw [ih _ w hw.2]
    exact processUrlFull_fps_lookup_ne env acc u w hw.1

theorem batch_foldl_fps_keys (env : SyncEnv) (urls : List String) :
    ∀ acc : BatchAcc,
      ∃ extra,
        (urls.foldl (processUrlFull env) acc).cds.content_fingerprints.map
            Prod.fst
          = acc.cds.content_fingerprints.map Prod.fst ++ extra ∧
        ∀ x ∈ extra, x ∈ urls := by
  induction urls with
  | nil => intro acc; exact ⟨[], by simp, by simp⟩
  | cons u us ih =>
    intro acc
    obtain ⟨e1, he1, ha1⟩ := processUrlFull_fps_keys env acc u
    obtain ⟨e2, he2, ha2⟩ := ih (processUrlFull env acc u)
    refine ⟨e1 ++ e2, ?_, ?_⟩
    · simp only [List.foldl_cons]
      rw [he2, he1, List.append_assoc]
    · intro x hx
      rcases List.mem_append.1 hx with hx | hx
      · simp [ha1 x hx]
      · simp [List.mem_cons_of_mem u (ha2 x hx)]

theorem batch_foldl_fps_nodup (env : SyncEnv) (urls : List String) :
    ∀ acc : BatchAcc,
      (acc.cds.content_fingerprints.map Prod.fst).Nodup →
      ((urls.foldl (processUrlFull env) acc).cds.content_fingerprints.map
        Prod.fst).Nodup := by
  induction urls with
  | nil => intro acc h; exact h
  | cons u us ih =>
    intro acc h
    simp only [List.foldl_cons]
    exact ih _ (processUrlFull_fps_nodup env acc u h)

theorem batch_foldl_sched_nodup (env : SyncEnv) (urls : List String) :
    ∀ acc : BatchAcc,
      (acc.cds.monitoring_schedules.map Prod.fst).Nodup →
      ((urls.foldl (processUrlFull env) acc).cds.monitoring_schedules.map
        Prod.fst).Nodup := by
  induction urls with
  | nil => intro acc h; exact h
  | cons u us ih =>
    intro acc h
    simp only [List.foldl_cons]
    exact ih _ (processUrlFull_sched_nodup env acc u h)

/-! ## Full-run fold lemmas -/

theorem chunkList_flatten {α : Type} (n : Nat) (l : List α) :
    (chunkList n l).flatten = l := by
  have key : ∀ (m : Nat) (l' : List α), l'.length ≤ m →
      (chunkList n l').flatten = l' := by
    intro m
    induction m with
    | zero =>
      intro l' hl
      have : l' = [] := List.length_eq_zero.1 (Nat.le_zero.1 hl)
      subst this
      simp [chunkList]
    | succ m ih =>
      intro l' hl
      match l' with
      | [] => simp [chunkList]
      | x :: xs =>
        rw [chunkList]
        simp only [List.flatten_cons]
        rw [ih ((x :: xs).drop (max n 1)) (by
          simp only [List.length_drop, List.length_cons] at hl ⊢
          omega)]
        exact List.take_append_drop _ _
  exact key l.length l (le_refl _)

theorem mem_of_mem_chunkList {α : Type} (n : Nat) (l : List α)
    (b : List α) (hb : b ∈ chunkList n l) (x : α) (hx : x ∈ b) : x ∈ l := by
  rw [← chunkList_flatten n l]
  exact List.mem_flatten.2 ⟨b, hb, hx⟩

theorem fullRun_foldl_totals (env : SyncEnv) (batches : List (List String)) :
    ∀ acc : FullRunAcc,
      (batches.foldl (fullRunBatchStep env) acc).total_processed
        = acc.total_processed + batches.flatten.length ∧
      (batches.foldl (fullRunBatchStep env) acc).errors
        = acc.errors ++ batches.flatten.filterMap (batchErrOf env) ∧
      (batches.foldl (fullRunBatchStep env) acc).log.indexCalls
        = acc.log.indexCalls
          ++ (batches.flatten.filter
                (fun u => (env.fetch u).success)).map (docOf env) ∧
      (batches.foldl (fullRunBatchStep env) acc).log.scheduleSetups
        = acc.log.scheduleSetups
          ++ batches.flatten.filter
              (fun u => (env.fetch u).success && env.indexDocument (docOf env u)) ∧
      (batches.foldl (fullRunBatchStep env) acc).log.blobStores
        = acc.log.blobStores
          ++ batches.flatten.filter
              (fun u => (env.fetch u).success && env.indexDocument (docOf env u)) ∧
      (batches.foldl (fullRunBatchStep env) acc).log.deleteCalls
        = acc.log.deleteCalls := by
  induction batches with
  | nil => intro acc; simp
  | cons b bs ih =>
    intro acc
    simp only [List.foldl_cons, List.flatten_cons]
    obtain ⟨p1, p2, p3, p4, p5, p6⟩ :=
      batch_foldl_spec env b
        { processed := 0, newly_indexed := 0, updated_indexed := 0,
          errors := [], cds := acc.cds, log := acc.log }
    obtain ⟨q1, q2, q3, q4, q5, q6⟩ := ih (fullRunBatchStep env acc b)
    have hstep : (fullRunBatchStep env acc b).total_processed
        = acc.total_processed + b.length ∧
        (fullRunBatchStep env acc b).errors
          = acc.errors ++ b.filterMap (batchErrOf env) ∧
        (fullRunBatchStep env acc b).log
          = (b.foldl (processUrlFull env)
              { processed := 0, newly_indexed := 0, updated_indexed := 0,
                errors := [], cds := acc.cds, log := acc.log }).log := by
      refine ⟨?_, ?_, rfl⟩
      · simp only [fullRunBatchStep, processUrlBatch]
        rw [p1]
        simp
      · simp only [fullRunBatchStep, processUrlBatch]
        rw [p2]
        simp
    refine ⟨?_, ?_, ?_, ?_, ?_, ?_⟩
    · rw [q1, hstep.1, List.length_append]
      omega
    · rw [q2, hstep.2.1, List.filterMap_append, List.append_assoc]
    · rw [q3, hstep.2.2, p3, List.filter_append, List.map_append]
      simp [List.append_assoc]
    · rw [q4, hstep.2.2, p4, List.filter_append]
      simp [List.append_assoc]
    · rw [q5, hstep.2.2, p5, List.filter_append]
      simp [List.append_assoc]
    · rw [q6, hstep.2.2, p6]

theorem fullRun_foldl_opSync (env : SyncEnv) (batches : List (List String)) :
    ∀ acc : FullRunAcc,
      fullAccOpSync acc →
      fullAccOpSync (batches.foldl (fullRunBatchStep env) acc) ∧
      (batches.foldl (fullRunBatchStep env) acc).op.status = acc.op.status ∧
      (batches.foldl (fullRunBatchStep env) acc).op.operation_id
        = acc.op.operation_id ∧
      (batches.foldl (fullRunBatchStep env) acc).op.operation_type
        = acc.op.operation_type ∧
      (batches.foldl (fullRunBatchStep env) acc).op.started_at
        = acc.op.started_at := by
  induction batches with
  | nil => intro acc h; exact ⟨h, rfl, rfl, rfl, rfl⟩
  | cons b bs ih =>
    intro acc h
    simp only [List.foldl_cons]
    obtain ⟨g1, g2, g3, g4, g5⟩ := ih (fullRunBatchStep env acc b)
      ⟨rfl, rfl, rfl, rfl⟩
    exact ⟨g1, by rw [g2]; rfl, by rw [g3]; rfl, by rw [g4]; rfl,
      by rw [g5]; rfl⟩

theorem fullRun_foldl_sched_lookup (env : SyncEnv)
    (batches : List (List String)) :
    ∀ (acc : FullRunAcc) (w : String),
      (∀ u ∈ batches.flatten, u = w → (env.fetch u).success = true →
        env.indexDocument (docOf env u) = false) →
      alookup w
        (batches.foldl (fullRunBatchStep env) acc).cds.monitoring_schedules
        = alookup w acc.cds.monitoring_schedules := by
  induction batches with
  | nil => intro acc w _; rfl
  | cons b bs ih =>
    intro acc w h
    simp only [List.flatten_cons] at h
    simp only [List.foldl_cons]
    rw [ih _ w (fun v hv => h v (List.mem_append_right _ hv))]
    exact batch_foldl_sched_lookup env b _ w
      (fun v hv => h v (List.mem_append_left _ hv))

theorem fullRun_foldl_fps_lookup (env : SyncEnv)
    (batches : List (List String)) :
    ∀ (acc : FullRunAcc) (w : String), w ∉ batches.flatten →
      alookup w
        (batches.foldl (fullRunBatchStep env) acc).cds.content_fingerprints
        = alookup w acc.cds.content_fingerprints := by
  induction batches with
  | nil => intro acc w _; rfl
  | cons b bs ih =>
    intro acc w hw
    simp only [List.flatten_cons, List.mem_append, not_or] at hw
    simp only [List.foldl_cons]
    rw [ih _ w hw.2]
    exact batch_foldl_fps_lookup env b _ w hw.1

theorem fullRun_foldl_fps_keys (env : SyncEnv) (batches : List (List String)) :
    ∀ acc : FullRunAcc,
      ∃ extra,
        (batches.foldl (fullRunBatchStep env) acc).cds.content_fingerprints.map
            Prod.fst
          = acc.cds.content_fingerprints.map Prod.fst ++ extra ∧
        ∀ x ∈ extra, x ∈ batches.flatten := by
  induction batches with
  | nil => intro acc; exact ⟨[], by simp, by simp⟩
  | cons b bs ih =>
    intro acc
    obtain ⟨e1, he1, ha1⟩ :=
      batch_foldl_fps_keys env b
        { processed := 0, newly_indexed := 0, updated_indexed := 0,
          errors := [], cds := acc.cds, log := acc.log }
    obtain ⟨e2, he2, ha2⟩ := ih (fullRunBatchStep env acc b)
    refine ⟨e1 ++ e2, ?_, ?_⟩
    · simp only [List.foldl_cons]
      rw [he2]
      show (fullRunBatchStep env acc b).cds.content_fingerprints.map Prod.fst
          ++ e2 = _
      simp only [fullRunBatchStep, processUrlBatch]
      rw [he1, List.append_assoc]
    · intro x hx
      simp only [List.flatten_cons, List.mem_append]
      rcases List.mem_append.1 hx with hx | hx
      · exact Or.inl (ha1 x hx)
      · exact Or.inr (ha2 x hx)

theorem fullRun_foldl_fps_nodup (env : SyncEnv) (batches : List (List String)) :
    ∀ acc : FullRunAcc,
      (acc.cds.content_fingerprints.map Prod.fst).Nodup →
      ((batches.foldl (fullRunBatchStep env) acc).cds.content_fingerprints.map
        Prod.fst).Nodup := by
  induction batches with
  | nil => intro acc h; exact h
  | cons b bs ih =>
    intro acc h
    simp only [List.foldl_cons]
    exact ih _ (batch_foldl_fps_nodup env b _ h)

theorem fullRun_foldl_sched_nodup (env : SyncEnv)
    (batches : List (List String)) :
    ∀ acc : FullRunAcc,
      (acc.cds.monitoring_schedules.map Prod.fst).Nodup →
      ((batches.foldl (fullRunBatchStep env) acc).cds.monitoring_schedules.map
        Prod.fst).Nodup := by
  induction batches with
  | nil => intro acc h; exact h
  | cons b bs ih =>
    intro acc h
    simp only [List.foldl_cons]
    exact ih _ (batch_foldl_sched_nodup env b _ h)

theorem filterMap_batchErrOf (env : SyncEnv)
    (hi : ∀ d, env.indexDocument d = true) (urls : List String) :
    urls.filterMap (batchErrOf env)
      = (urls.filter (fun u => !(env.fetch u).success)).map (scrapeFailMsg env) := by
  induction urls with
  | nil => rfl
  | cons u us ih =>
    rw [List.filterMap_cons, List.filter_cons]
    cases hf : (env.fetch u).success <;> simp [batchErrOf, hf, hi, ih]

/-! ## C1: full-run counts under fetch failures -/

/-- C1: in a full run where the indexer (and so every non-fetch
operation) succeeds, every valid URL is processed (`urls_processed = N`),
each fetch failure appends exactly one error and processing continues, so
the finished operation reports `urls_failed = k`, the error list is
exactly the fetch-failure messages in processing order, and the run's
`success` flag is `k = 0` (the operation status being
`completed`/`failed` accordingly). -/
theorem fullSync_fetch_failure_counts (env : SyncEnv) (discovered : List String)
    (st : SyncState) (hi : ∀ d, env.indexDocument d = true) :
    (performFullSynchronization env discovered st).finalOp.urls_processed
      = (discovered.filter isValidUrlFormat).length ∧
    (performFullSynchronization env discovered st).finalOp.urls_failed
      = ((discovered.filter isValidUrlFormat).filter
          (fun u => !(env.fetch u).success)).length ∧
    (performFullSynchronization env discovered st).result.total_processed
      = (discovered.filter isValidUrlFormat).length ∧
    (performFullSynchronization env discovered st).result.errors
      = ((discovered.filter isValidUrlFormat).filter
          (fun u => !(env.fetch u).success)).map (scrapeFailMsg env) ∧
    ((performFullSynchronization env discovered st).result.success = true ↔
      ((discovered.filter isValidUrlFormat).filter
          (fun u => !(env.fetch u).success)).length = 0) ∧
    (performFullSynchronization env discovered st).finalOp.status
      = (if ((discovered.filter isValidUrlFormat).filter
            (fun u => !(env.fetch u).success)).length = 0
         then "completed" else "failed") := by
  obtain ⟨t1, t2, t3, t4, t5, t6⟩ :=
    fullRun_foldl_totals env
      (chunkList env.batchSize (discovered.filter isValidUrlFormat))
      { total_processed := 0, newly_indexed := 0, updated_indexed := 0,
        errors := [], cds := st.cds, log := SyncLog.empty
        op := { operation_id := "full_sync_" ++ toString env.now
                operation_type := "full_sync", status := "running"
                started_at := some env.now, completed_at := none
                urls_processed := 0, urls_updated := 0, urls_failed := 0,
                errors := [] }
        trace := [{ operation_id := "full_sync_" ++ toString env.now
                    operation_type := "full_sync", status := "running"
                    started_at := some env.now, completed_at := none
                    urls_processed := 0, urls_updated := 0, urls_failed := 0,
                    errors := [] }] }
  obtain ⟨⟨s1, s2, s3, s4⟩, s5, s6, s7, s8⟩ :=
    fullRun_foldl_opSync env
      (chunkList env.batchSize (discovered.filter isValidUrlFormat))
      { total_processed := 0, newly_indexed := 0, updated_indexed := 0,
        errors := [], cds := st.cds, log := SyncLog.empty
        op := { operation_id := "full_sync_" ++ toString env.now
                operation_type := "full_sync", status := "running"
                started_at := some env.now, completed_at := none
                urls_processed := 0, urls_updated := 0, urls_failed := 0,
                errors := [] }
        trace := [{ operation_id := "full_sync_" ++ toString env.now
                    operation_type := "full_sync", status := "running"
                    started_at := some env.now, completed_at := none
                    urls_processed := 0, urls_updated := 0, urls_failed := 0,
                    errors := [] }] }
      ⟨rfl, rfl, rfl, rfl⟩
  rw [chunkList_flatten] at t1 t2
  rw [filterMap_batchErrOf env hi] at t2
  simp only [performFullSynchronization]
  refine ⟨?_, ?_, ?_, ?_, ?_, ?_⟩
  · simp only [s1, t1]
    simp
  · simp only [s3, t2]
    simp
  · simp only [t1]
    simp
  · simp only [t2]
    simp
  · simp only [t2]
    simp
  · simp only [s3, t2]
    by_cases hk : ((discovered.filter isValidUrlFormat).filter
        (fun u => !(env.fetch u).success)).length = 0 <;>
      simp [hk]

/-- C1 (witness): a run over two valid urls (and one invalid candidate)
where exactly the second fetch fails: 2 processed, 1 failed, not
successful. -/
theorem fullSync_fetch_failure_counts_witness :
    (∀ d, w1Env.indexDocument d = true) ∧
    ((performFullSynchronization w1Env [w1UrlA, w1UrlB, "bogus"]
        w1St).finalOp.urls_failed = 1 ∧
      (performFullSynchronization w1Env [w1UrlA, w1UrlB, "bogus"]
        w1St).finalOp.urls_processed = 2 ∧
      (performFullSynchronization w1Env [w1UrlA, w1UrlB, "bogus"]
        w1St).result.success = false) ∧
    ((performFullSynchronization w1Env [w1UrlA, w1UrlB, "bogus"]
        w1St).finalOp.urls_processed
      = ([w1UrlA, w1UrlB, "bogus"].filter isValidUrlFormat).length ∧
    (performFullSynchronization w1Env [w1UrlA, w1UrlB, "bogus"]
        w1St).finalOp.urls_failed
      = (([w1UrlA, w1UrlB, "bogus"].filter isValidUrlFormat).filter
          (fun u => !(w1Env.fetch u).success)).length ∧
    (performFullSynchronization w1Env [w1UrlA, w1UrlB, "bogus"]
        w1St).result.total_processed
      = ([w1UrlA, w1UrlB, "bogus"].filter isValidUrlFormat).length ∧
    (performFullSynchronization w1Env [w1UrlA, w1UrlB, "bogus"]
        w1St).result.errors
      = (([w1UrlA, w1UrlB, "bogus"].filter isValidUrlFormat).filter
          (fun u => !(w1Env.fetch u).success)).map (scrapeFailMsg w1Env) ∧
    ((performFullSynchronization w1Env [w1UrlA, w1UrlB, "bogus"]
        w1St).result.success = true ↔
      (([w1UrlA, w1UrlB, "bogus"].filter isValidUrlFormat).filter
          (fun u => !(w1Env.fetch u).success)).length = 0) ∧
    (performFullSynchronization w1Env [w1UrlA, w1UrlB, "bogus"]
        w1St).finalOp.status
      = (if (([w1UrlA, w1UrlB, "bogus"].filter isValidUrlFormat).filter
            (fun u => !(w1Env.fetch u).success)).length = 0
         then "completed" else "failed")) :=
  ⟨fun d => rfl, by with_unfolding_all decide,
    fullSync_fetch_failure_counts w1Env [w1UrlA, w1UrlB, "bogus"] w1St
      (fun d => rfl)⟩

/-! ## C2: indexing is unconditional in full sync -/

set_option maxRecDepth 16384 in
/-- C2 (counterexample): a full-sync run over a URL whose stored
fingerprint matches the fetched content exactly — the classifier reports
no change (`detect_changes` returns `None`) — still submits the document
to the Indexer: `_process_url_batch` calls `index_document`
unconditionally on fetch success. -/
theorem fullSync_indexes_unchanged_document :
    ((detectChanges c2Env.now c2Url
        (createContentFingerprint c2Env.hash c2Env.now c2Url
          (c2Env.fetch c2Url).content
          (asdictMeta (c2Env.fetch c2Url).metadata))
        c2St.cds).1 = none) ∧
    (performFullSynchronization c2Env [c2Url] c2St).log.indexCalls
      = [docOf c2Env c2Url] := by
  with_unfolding_all decide

/-- C2 (amended): in full-sync batch processing every successfully
fetched document is submitted to the Indexer regardless of the
classifier's verdict; the Monitoring Scheduler entry is registered and
the content persisted to the Object Store exactly when the Indexer call
succeeds; on indexer failure an error is recorded for the URL and its
schedule entry is not advanced. -/
theorem processUrlBatch_index_schedule_blob (env : SyncEnv)
    (urls : List String) (cds : ChangeDetectionState) (log : SyncLog) :
    (processUrlBatch env urls cds log).log.indexCalls
      = log.indexCalls
        ++ (urls.filter (fun u => (env.fetch u).success)).map (docOf env) ∧
    (processUrlBatch env urls cds log).log.scheduleSetups
      = log.scheduleSetups
        ++ urls.filter
            (fun u => (env.fetch u).success && env.indexDocument (docOf env u)) ∧
    (processUrlBatch env urls cds log).log.blobStores
      = log.blobStores
        ++ urls.filter
            (fun u => (env.fetch u).success && env.indexDocument (docOf env u)) ∧
    (processUrlBatch env urls cds log).errors
      = urls.filterMap (batchErrOf env) ∧
    (∀ u ∈ urls, (env.fetch u).success = true →
      env.indexDocument (docOf env u) = false →
      ("Failed to index document: " ++ u)
          ∈ (processUrlBatch env urls cds log).errors ∧
      alookup u (processUrlBatch env urls cds log).cds.monitoring_schedules
        = alookup u cds.monitoring_schedules) := by
  obtain ⟨p1, p2, p3, p4, p5, p6⟩ := batch_foldl_spec env urls
    { processed := 0, newly_indexed := 0, updated_indexed := 0, errors := [],
      cds := cds, log := log }
  refine ⟨p3, p4, p5, by rw [processUrlBatch, p2]; simp, ?_⟩
  intro u hu hf hix
  constructor
  · rw [processUrlBatch, p2]
    refine List.mem_append_right _ (List.mem_filterMap.2 ⟨u, hu, ?_⟩)
    simp [batchErrOf, hf, hix]
  · exact batch_foldl_sched_lookup env urls _ u
      (fun v _ hv => by subst hv; exact fun _ => hix)

/-- C2 (witness): a single-url batch whose indexer rejects the document:
the error is recorded, the schedule map is untouched, and nothing is
registered or persisted. -/
theorem processUrlBatch_index_schedule_blob_witness :
    (w1UrlA ∈ [w1UrlA] ∧ (w2Env.fetch w1UrlA).success = true ∧
      w2Env.indexDocument (docOf w2Env w1UrlA) = false) ∧
    (("Failed to index document: " ++ w1UrlA)
        ∈ (processUrlBatch w2Env [w1UrlA] emptyCds SyncLog.empty).errors ∧
      alookup w1UrlA
        (processUrlBatch w2Env [w1UrlA] emptyCds
          SyncLog.empty).cds.monitoring_schedules
        = alookup w1UrlA emptyCds.monitoring_schedules) ∧
    (processUrlBatch w2Env [w1UrlA] emptyCds SyncLog.empty).log.scheduleSetups
      = SyncLog.empty.scheduleSetups
        ++ [w1UrlA].filter
            (fun u => (w2Env.fetch u).success
              && w2Env.indexDocument (docOf w2Env u)) ∧
    (processUrlBatch w2Env [w1UrlA] emptyCds SyncLog.empty).log.blobStores
      = SyncLog.empty.blobStores
        ++ [w1UrlA].filter
            (fun u => (w2Env.fetch u).success
              && w2Env.indexDocument (docOf w2Env u)) :=
  ⟨⟨by decide, by decide, rfl⟩,
    (processUrlBatch_index_schedule_blob w2Env [w1UrlA] emptyCds
        SyncLog.empty).2.2.2.2 w1UrlA (by decide) (by decide) rfl,
    (processUrlBatch_index_schedule_blob w2Env [w1UrlA] emptyCds
        SyncLog.empty).2.1,
    (processUrlBatch_index_schedule_blob w2Env [w1UrlA] emptyCds
        SyncLog.empty).2.2.1⟩

/-! ## C10: incremental runs never report newly/removed documents -/

theorem chunkList_singleton {α : Type} (n : Nat) (x : α) :
    chunkList n [x] = [[x]] := by
  rw [chunkList]
  have h1 : [x].take (max n 1) = [x] :=
    List.take_of_length_le (by simp)
  have h2 : [x].drop (max n 1) = [] :=
    List.drop_eq_nil_of_le (by simp)
  rw [h1, h2, chunkList]

theorem processIncremental_new_url_updated (env : SyncEnv) (u : String)
    (cds : ChangeDetectionState) (log : SyncLog)
    (hfp : alookup u cds.content_fingerprints = none)
    (hf : (env.fetch u).success = true)
    (hix : env.indexDocument (docOf env u) = true) :
    (processIncrementalBatch env [u] cds log).updated_indexed = 1 ∧
    (processIncrementalBatch env [u] cds log).errors = [] := by
  simp [processIncrementalBatch, processUrlIncremental, hf, detectChanges,
    hfp, hix]

/-- C10: every incremental run reports `newly_indexed = 0` and
`removed_indexed = 0` (the local counters are initialised to zero and
never incremented); a URL with no prior fingerprint that is fetched and
indexed successfully is counted in `updated_indexed` instead. -/
theorem incrementalSync_zero_newly_removed :
    (∀ (env : SyncEnv) (st : SyncState),
      (performIncrementalSynchronization env st).result.newly_indexed = 0 ∧
      (performIncrementalSynchronization env st).result.removed_indexed = 0) ∧
    (∀ (env : SyncEnv) (st : SyncState) (u : String),
      getUrlsDueForCheck env.now st.cds = [u] →
      alookup u st.cds.content_fingerprints = none →
      (env.fetch u).success = true →
      env.indexDocument (docOf env u) = true →
      (performIncrementalSynchronization env st).result.updated_indexed = 1 ∧
      (performIncrementalSynchronization env st).result.newly_indexed = 0) := by
  constructor
  · intro env st
    simp only [performIncrementalSynchronization]
    split <;> exact ⟨rfl, rfl⟩
  · intro env st u hdue hfp hf hix
    obtain ⟨h1, _⟩ := processIncremental_new_url_updated env u st.cds
      SyncLog.empty hfp hf hix
    simp only [performIncrementalSynchronization, hdue, List.isEmpty_cons,
      Bool.false_eq_true, if_false, chunkList_singleton, List.foldl_cons,
      List.foldl_nil]
    refine ⟨?_, by trivial⟩
    simp only [incRunBatchStep]
    rw [h1]

/-- C10 (witness): one due URL with no prior fingerprint, fetched and
indexed successfully — counted as updated, never as newly/removed. -/
theorem incrementalSync_zero_newly_removed_witness :
    (getUrlsDueForCheck w9Env.now w10St.cds = [w1UrlA] ∧
      alookup w1UrlA w10St.cds.content_fingerprints = none ∧
      (w9Env.fetch w1UrlA).success = true ∧
      w9Env.indexDocument (docOf w9Env w1UrlA) = true) ∧
    ((performIncrementalSynchronization w9Env w10St).result.updated_indexed
        = 1 ∧
      (performIncrementalSynchronization w9Env w10St).result.newly_indexed
        = 0) ∧
    (performIncrementalSynchronization w9Env w10St).result.removed_indexed
      = 0 :=
  ⟨⟨by decide, rfl, rfl, rfl⟩,
    incrementalSync_zero_newly_removed.2 w9Env w10St w1UrlA (by decide)
      rfl rfl rfl,
    (incrementalSync_zero_newly_removed.1 w9Env w10St).2⟩

/-! ## C3: operation status transitions and counter monotonicity -/

theorem fullRun_trace_invariant (env : SyncEnv) (batches : List (List String)) :
    ∀ acc : FullRunAcc,
      fullAccOpSync acc →
      acc.op.status = "running" →
      acc.trace.getLast? = some acc.op →
      List.Chain' opStepOk acc.trace →
      (∀ op ∈ acc.trace, statusOk op) →
      fullAccOpSync (batches.foldl (fullRunBatchStep env) acc) ∧
      (batches.foldl (fullRunBatchStep env) acc).op.status = "running" ∧
      (batches.foldl (fullRunBatchStep env) acc).trace.getLast?
        = some (batches.foldl (fullRunBatchStep env) acc).op ∧
      List.Chain' opStepOk (batches.foldl (fullRunBatchStep env) acc).trace ∧
      (∀ op ∈ (batches.foldl (fullRunBatchStep env) acc).trace, statusOk op) := by
  induction batches with
  | nil => intro acc h1 h2 h3 h4 h5; exact ⟨h1, h2, h3, h4, h5⟩
  | cons b bs ih =>
    intro acc h1 h2 h3 h4 h5
    simp only [List.foldl_cons]
    have hstep : opStepOk acc.op (fullRunBatchStep env acc b).op := by
      constructor
      · left
        exact rfl
      · refine ⟨?_, ?_, ?_⟩
        · rw [h1.1]
          exact Nat.le_add_right _ _
        · rw [h1.2.1]
          show acc.newly_indexed + acc.updated_indexed ≤
            (acc.newly_indexed + _) + (acc.updated_indexed + _)
          omega
        · rw [h1.2.2.1]
          show acc.errors.length ≤ (acc.errors ++ _).length
          simp
    apply ih
    · exact ⟨rfl, rfl, rfl, rfl⟩
    · exact h2
    · show (acc.trace ++ [(fullRunBatchStep env acc b).op]).getLast? = _
      rw [List.getLast?_concat]
    · show List.Chain' opStepOk (acc.trace ++ [(fullRunBatchStep env acc b).op])
      rw [List.chain'_append]
      refine ⟨h4, List.chain'_singleton _, ?_⟩
      intro x hx y hy
      rw [h3] at hx
      cases hx
      simp only [List.head?_cons, Option.mem_def, Option.some.injEq] at hy
      subst hy
      exact hstep
    · intro op hop
      rcases List.mem_append.1 hop with hop | hop
      · exact h5 op hop
      · rcases List.mem_singleton.1 hop with rfl
        right; left
        exact h2

theorem incRun_trace_invariant (env : SyncEnv) (batches : List (List String)) :
    ∀ acc : IncRunAcc,
      incAccOpSync acc →
      acc.op.status = "running" →
      acc.trace.getLast? = some acc.op →
      List.Chain' opStepOk acc.trace →
      (∀ op ∈ acc.trace, statusOk op) →
      incAccOpSync (batches.foldl (incRunBatchStep env) acc) ∧
      (batches.foldl (incRunBatchStep env) acc).op.status = "running" ∧
      (batches.foldl (incRunBatchStep env) acc).trace.getLast?
        = some (batches.foldl (incRunBatchStep env) acc).op ∧
      List.Chain' opStepOk (batches.foldl (incRunBatchStep env) acc).trace ∧
      (∀ op ∈ (batches.foldl (incRunBatchStep env) acc).trace, statusOk op) := by
  induction batches with
  | nil => intro acc h1 h2 h3 h4 h5; exact ⟨h1, h2, h3, h4, h5⟩
  | cons b bs ih =>
    intro acc h1 h2 h3 h4 h5
    simp only [List.foldl_cons]
    have hstep : opStepOk acc.op (incRunBatchStep env acc b).op := by
      constructor
      · left
        exact rfl
      · refine ⟨?_, ?_, ?_⟩
        · rw [h1.1]
          exact Nat.le_add_right _ _
        · rw [h1.2.1]
          exact Nat.le_add_right _ _
        · rw [h1.2.2.1]
          show acc.errors.length ≤ (acc.errors ++ _).length
          simp
    apply ih
    · exact ⟨rfl, rfl, rfl, rfl⟩
    · exact h2
    · show (acc.trace ++ [(incRunBatchStep env acc b).op]).getLast? = _
      rw [List.getLast?_concat]
    · show List.Chain' opStepOk (acc.trace ++ [(incRunBatchStep env acc b).op])
      rw [List.chain'_append]
      refine ⟨h4, List.chain'_singleton _, ?_⟩
      intro x hx y hy
      rw [h3] at hx
      cases hx
      simp only [List.head?_cons, Option.mem_def, Option.some.injEq] at hy
      subst hy
      exact hstep
    · intro op hop
      rcases List.mem_append.1 hop with hop | hop
      · exact h5 op hop
      · rcases List.mem_singleton.1 hop with rfl
        right; left
        exact h2

/-- C3: over a full or an incremental run, the active operation's status
only takes the four claimed values and only steps along
`pending → running → {completed, failed}` (here: created `running`, it
either stays `running` or finalizes to `completed`/`failed`), and the
counters `urls_processed`, `urls_updated`, `urls_failed` never decrease
along the operation's observable snapshots. -/
theorem syncOperation_status_and_counters (env env' : SyncEnv)
    (discovered : List String) (st st' : SyncState) :
    (List.Chain' opStepOk (performFullSynchronization env discovered st).opTrace ∧
      ∀ op ∈ (performFullSynchronization env discovered st).opTrace,
        statusOk op) ∧
    (List.Chain' opStepOk (performIncrementalSynchronization env' st').opTrace ∧
      ∀ op ∈ (performIncrementalSynchronization env' st').opTrace,
        statusOk op) := by
  constructor
  · obtain ⟨g1, g2, g3, g4, g5⟩ :=
      fullRun_trace_invariant env
        (chunkList env.batchSize (discovered.filter isValidUrlFormat))
        { total_processed := 0, newly_indexed := 0, updated_indexed := 0,
          errors := [], cds := st.cds, log := SyncLog.empty
          op := { operation_id := "full_sync_" ++ toString env.now
                  operation_type := "full_sync", status := "running"
                  started_at := some env.now, completed_at := none
                  urls_processed := 0, urls_updated := 0, urls_failed := 0,
                  errors := [] }
          trace := [{ operation_id := "full_sync_" ++ toString env.now
                      operation_type := "full_sync", status := "running"
                      started_at := some env.now, completed_at := none
                      urls_processed := 0, urls_updated := 0, urls_failed := 0,
                      errors := [] }] }
        ⟨rfl, rfl, rfl, rfl⟩ rfl rfl (List.chain'_singleton _)
        (by intro op hop; rcases List.mem_singleton.1 hop with rfl; right; left; rfl)
    constructor
    · show List.Chain' opStepOk (_ ++ [_])
      rw [List.chain'_append]
      refine ⟨g4, List.chain'_singleton _, ?_⟩
      intro x hx y hy
      rw [g3] at hx
      cases hx
      simp only [List.head?_cons, Option.mem_def, Option.some.injEq] at hy
      subst hy
      constructor
      · right; right
        refine ⟨g2, ?_⟩
        show (if _ then "completed" else "failed") = "completed" ∨
          (if _ then "completed" else "failed") = "failed"
        split
        · exact Or.inl rfl
        · exact Or.inr rfl
      · exact ⟨le_refl _, le_refl _, le_refl _⟩
    · intro op hop
      rcases List.mem_append.1 hop with hop | hop
      · exact g5 op hop
      · rcases List.mem_singleton.1 hop with rfl
        unfold statusOk
        split
        · right; right; left; rfl
        · right; right; right; rfl
  · simp only [performIncrementalSynchronization]
    split
    · constructor
      · exact List.chain'_singleton _
      · intro op hop
        rcases List.mem_singleton.1 hop with rfl
        right; left; rfl
    · obtain ⟨g1, g2, g3, g4, g5⟩ :=
        incRun_trace_invariant env'
          (chunkList env'.batchSize (getUrlsDueForCheck env'.now st'.cds))
          { total_processed := 0, updated_indexed := 0,
            errors := [], cds := st'.cds, log := SyncLog.empty
            op := { operation_id := "incremental_sync_" ++ toString env'.now
                    operation_type := "incremental_sync", status := "running"
                    started_at := some env'.now, completed_at := none
                    urls_processed := 0, urls_updated := 0, urls_failed := 0,
                    errors := [] }
            trace := [{ operation_id :=
                          "incremental_sync_" ++ toString env'.now
                        operation_type := "incremental_sync"
                        status := "running"
                        started_at := some env'.now, completed_at := none
                        urls_processed := 0, urls_updated := 0,
                        urls_failed := 0, errors := [] }] }
          ⟨rfl, rfl, rfl, rfl⟩ rfl rfl (List.chain'_singleton _)
          (by intro op hop; rcases List.mem_singleton.1 hop with rfl
              right; left; rfl)
      constructor
      · show List.Chain' opStepOk (_ ++ [_])
        rw [List.chain'_append]
        refine ⟨g4, List.chain'_singleton _, ?_⟩
        intro x hx y hy
        rw [g3] at hx
        cases hx
        simp only [List.head?_cons, Option.mem_def, Option.some.injEq] at hy
        subst hy
        constructor
        · right; right
          refine ⟨g2, ?_⟩
          show (if _ then "completed" else "failed") = "completed" ∨
            (if _ then "completed" else "failed") = "failed"
          split
          · exact Or.inl rfl
          · exact Or.inr rfl
        · exact ⟨le_refl _, le_refl _, le_refl _⟩
      · intro op hop
        rcases List.mem_append.1 hop with hop | hop
        · exact g5 op hop
        · rcases List.mem_singleton.1 hop with rfl
          unfold statusOk
          split
          · right; right; left; rfl
          · right; right; right; rfl

/-! ## C9: obsolete-document cleanup -/

theorem cleanupUrl_cds (env : SyncEnv) (acc : CleanupAcc) (u : String) :
    (cleanupUrl env acc u).cds
      = if env.deleteDocument (env.hash u.data) then
          { acc.cds with
            content_fingerprints := aerase u acc.cds.content_fingerprints
            monitoring_schedules := aerase u acc.cds.monitoring_schedules }
        else acc.cds := by
  simp only [cleanupUrl]
  split <;> rfl

theorem cleanup_foldl_deleteCalls (env : SyncEnv) (obsolete : List String) :
    ∀ acc : CleanupAcc,
      (obsolete.foldl (cleanupUrl env) acc).deleteCalls
        = acc.deleteCalls ++ obsolete.map (fun u => env.hash u.data) := by
  induction obsolete with
  | nil => intro acc; simp
  | cons u us ih =>
    intro acc
    simp only [List.foldl_cons, List.map_cons]
    rw [ih]
    have : (cleanupUrl env acc u).deleteCalls
        = acc.deleteCalls ++ [env.hash u.data] := by
      simp only [cleanupUrl]
      split <;> rfl
    rw [this, List.append_assoc]
    rfl

theorem cleanup_foldl_lookup_not_mem (env : SyncEnv) (obsolete : List String) :
    ∀ (acc : CleanupAcc) (w : String), w ∉ obsolete →
      alookup w
          (obsolete.foldl (cleanupUrl env) acc).cds.content_fingerprints
        = alookup w acc.cds.content_fingerprints ∧
      alookup w
          (obsolete.foldl (cleanupUrl env) acc).cds.monitoring_schedules
        = alookup w acc.cds.monitoring_schedules := by
  induction obsolete with
  | nil => intro acc w _; exact ⟨rfl, rfl⟩
  | cons u us ih =>
    intro acc w hw
    simp only [List.mem_cons, not_or] at hw
    simp only [List.foldl_cons]
    obtain ⟨i1, i2⟩ := ih (cleanupUrl env acc u) w hw.2
    rw [i1, i2, cleanupUrl_cds]
    split
    · exact ⟨alookup_aerase_ne _ _ _ hw.1, alookup_aerase_ne _ _ _ hw.1⟩
    · exact ⟨rfl, rfl⟩

theorem cleanup_foldl_nodup (env : SyncEnv) (obsolete : List String) :
    ∀ acc : CleanupAcc,
      (acc.cds.content_fingerprints.map Prod.fst).Nodup →
      (acc.cds.monitoring_schedules.map Prod.fst).Nodup →
      ((obsolete.foldl (cleanupUrl env) acc).cds.content_fingerprints.map
        Prod.fst).Nodup ∧
      ((obsolete.foldl (cleanupUrl env) acc).cds.monitoring_schedules.map
        Prod.fst).Nodup := by
  induction obsolete with
  | nil => intro acc h1 h2; exact ⟨h1, h2⟩
  | cons u us ih =>
    intro acc h1 h2
    simp only [List.foldl_cons]
    refine ih (cleanupUrl env acc u) ?_ ?_ <;> rw [cleanupUrl_cds] <;> split
    · exact keys_aerase_nodup _ _ h1
    · exact h1
    · exact keys_aerase_nodup _ _ h2
    · exact h2

theorem cleanup_foldl_lookup_mem (env : SyncEnv) (obsolete : List String) :
    ∀ (acc : CleanupAcc) (w : String), w ∈ obsolete → obsolete.Nodup →
      (acc.cds.content_fingerprints.map Prod.fst).Nodup →
      (acc.cds.monitoring_schedules.map Prod.fst).Nodup →
      ((env.deleteDocument (env.hash w.data) = true →
          alookup w
              (obsolete.foldl (cleanupUrl env) acc).cds.content_fingerprints
            = none ∧
          alookup w
              (obsolete.foldl (cleanupUrl env) acc).cds.monitoring_schedules
            = none) ∧
        (env.deleteDocument (env.hash w.data) = false →
          alookup w
              (obsolete.foldl (cleanupUrl env) acc).cds.content_fingerprints
            = alookup w acc.cds.content_fingerprints ∧
          alookup w
              (obsolete.foldl (cleanupUrl env) acc).cds.monitoring_schedules
            = alookup w acc.cds.monitoring_schedules)) := by
  induction obsolete with
  | nil => intro acc w hw; exact absurd hw (List.not_mem_nil w)
  | cons u us ih =>
    intro acc w hw hnd h1 h2
    simp only [List.nodup_cons] at hnd
    simp only [List.foldl_cons]
    rcases List.mem_cons.1 hw with rfl | hmem
    · -- the loop handles `w` first; later iterations never touch it again
      obtain ⟨j1, j2⟩ :=
        cleanup_foldl_lookup_not_mem env us (cleanupUrl env acc w) w hnd.1
      rw [j1, j2, cleanupUrl_cds]
      constructor
      · intro hdel
        rw [if_pos hdel]
        exact ⟨alookup_aerase_self _ _ h1, alookup_aerase_self _ _ h2⟩
      · intro hdel
        rw [if_neg (by rw [hdel]; exact Bool.false_ne_true)]
        exact ⟨rfl, rfl⟩
    · have hwu : w ≠ u := fun he => hnd.1 (he ▸ hmem)
      obtain ⟨k1, k2⟩ := ih (cleanupUrl env acc u) w hmem hnd.2
        (by rw [cleanupUrl_cds]; split
            · exact keys_aerase_nodup _ _ h1
            · exact h1)
        (by rw [cleanupUrl_cds]; split
            · exact keys_aerase_nodup _ _ h2
            · exact h2)
      have hstep :
          alookup w (cleanupUrl env acc u).cds.content_fingerprints
            = alookup w acc.cds.content_fingerprints ∧
          alookup w (cleanupUrl env acc u).cds.monitoring_schedules
            = alookup w acc.cds.monitoring_schedules := by
        rw [cleanupUrl_cds]
        split
        · exact ⟨alookup_aerase_ne _ _ _ hwu, alookup_aerase_ne _ _ _ hwu⟩
        · exact ⟨rfl, rfl⟩
      constructor
      · intro hdel
        exact k1 hdel
      · intro hdel
        obtain ⟨m1, m2⟩ := k2 hdel
        exact ⟨m1.trans hstep.1, m2.trans hstep.2⟩
/-- C9: after the batches of a full run, the set of URLs on which index
deletion is attempted is exactly (URLs with a stored fingerprint before
the run) minus (URLs seen in this run) — each deletion is requested under
the deterministic hash of the URL — and an obsolete URL's fingerprint and
schedule entry are removed exactly when its deletion succeeds (on
deletion failure both are retained unchanged). -/
theorem fullSync_obsolete_cleanup (env : SyncEnv) (discovered : List String)
    (st : SyncState)
    (hfnd : (st.cds.content_fingerprints.map Prod.fst).Nodup)
    (hsnd : (st.cds.monitoring_schedules.map Prod.fst).Nodup) :
    (performFullSynchronization env discovered st).log.deleteCalls
      = ((st.cds.content_fingerprints.map Prod.fst).filter
          (fun u => !((discovered.filter isValidUrlFormat).contains u))).map
          (fun u => env.hash u.data) ∧
    (∀ w ∈ (st.cds.content_fingerprints.map Prod.fst).filter
          (fun u => !((discovered.filter isValidUrlFormat).contains u)),
      (env.deleteDocument (env.hash w.data) = true →
        alookup w
            (performFullSynchronization env discovered
              st).st.cds.content_fingerprints = none ∧
        alookup w
            (performFullSynchronization env discovered
              st).st.cds.monitoring_schedules = none) ∧
      (env.deleteDocument (env.hash w.data) = false →
        alookup w
            (performFullSynchronization env discovered
              st).st.cds.content_fingerprints
          = alookup w st.cds.content_fingerprints ∧
        alookup w
            (performFullSynchronization env discovered
              st).st.cds.monitoring_schedules
          = alookup w st.cds.monitoring_schedules)) := by
  simp only [performFullSynchronization, cleanupObsoleteDocuments]
  obtain ⟨extra, hkeys, hext⟩ :=
    fullRun_foldl_fps_keys env
      (chunkList env.batchSize (discovered.filter isValidUrlFormat))
      { total_processed := 0, newly_indexed := 0, updated_indexed := 0,
        errors := [], cds := st.cds, log := SyncLog.empty
        op := { operation_id := "full_sync_" ++ toString env.now
                operation_type := "full_sync", status := "running"
                started_at := some env.now, completed_at := none
                urls_processed := 0, urls_updated := 0, urls_failed := 0,
                errors := [] }
        trace := [{ operation_id := "full_sync_" ++ toString env.now
                    operation_type := "full_sync", status := "running"
                    started_at := some env.now, completed_at := none
                    urls_processed := 0, urls_updated := 0, urls_failed := 0,
                    errors := [] }] }
  rw [chunkList_flatten] at hext
  have hand :=
    fullRun_foldl_fps_nodup env
      (chunkList env.batchSize (discovered.filter isValidUrlFormat))
      { total_processed := 0, newly_indexed := 0, updated_indexed := 0,
        errors := [], cds := st.cds, log := SyncLog.empty
        op := { operation_id := "full_sync_" ++ toString env.now
                operation_type := "full_sync", status := "running"
                started_at := some env.now, completed_at := none
                urls_processed := 0, urls_updated := 0, urls_failed := 0,
                errors := [] }
        trace := [{ operation_id := "full_sync_" ++ toString env.now
                    operation_type := "full_sync", status := "running"
                    started_at := some env.now, completed_at := none
                    urls_processed := 0, urls_updated := 0, urls_failed := 0,
                    errors := [] }] }
      hfnd
  have hands :=
    fullRun_foldl_sched_nodup env
      (chunkList env.batchSize (discovered.filter isValidUrlFormat))
      { total_processed := 0, newly_indexed := 0, updated_indexed := 0,
        errors := [], cds := st.cds, log := SyncLog.empty
        op := { operation_id := "full_sync_" ++ toString env.now
                operation_type := "full_sync", status := "running"
                started_at := some env.now, completed_at := none
                urls_processed := 0, urls_updated := 0, urls_failed := 0,
                errors := [] }
        trace := [{ operation_id := "full_sync_" ++ toString env.now
                    operation_type := "full_sync", status := "running"
                    started_at := some env.now, completed_at := none
                    urls_processed := 0, urls_updated := 0, urls_failed := 0,
                    errors := [] }] }
      hsnd
  have hextfilter : extra.filter
      (fun u => !((discovered.filter isValidUrlFormat).contains u)) = [] := by
    rw [List.filter_eq_nil_iff]
    intro x hx
    simp [List.contains, hext x hx]
  have hobs : List.filter
        (fun u => !((discovered.filter isValidUrlFormat).contains u))
        (List.map Prod.fst
          ((chunkList env.batchSize
              (discovered.filter isValidUrlFormat)).foldl
            (fullRunBatchStep env)
            { total_processed := 0, newly_indexed := 0, updated_indexed := 0,
              errors := [], cds := st.cds, log := SyncLog.empty
              op := { operation_id := "full_sync_" ++ toString env.now
                      operation_type := "full_sync", status := "running"
                      started_at := some env.now, completed_at := none
                      urls_processed := 0, urls_updated := 0, urls_failed := 0,
                      errors := [] }
              trace := [{ operation_id := "full_sync_" ++ toString env.now
                          operation_type := "full_sync", status := "running"
                          started_at := some env.now, completed_at := none
                          urls_processed := 0, urls_updated := 0,
                          urls_failed := 0,
                          errors := [] }] }).cds.content_fingerprints)
      = List.filter
          (fun u => !((discovered.filter isValidUrlFormat).contains u))
          (List.map Prod.fst st.cds.content_fingerprints) := by
    rw [hkeys, List.filter_append, hextfilter, List.append_nil]
  rw [hobs]
  constructor
  · rw [cleanup_foldl_deleteCalls]
    simp
  · intro w hw
    have hwnv : w ∉ discovered.filter isValidUrlFormat := by
      intro hmem
      have hwp := List.mem_filter.1 hw
      simp [List.contains, hmem] at hwp
    have hpre :=
      fullRun_foldl_fps_lookup env
        (chunkList env.batchSize (discovered.filter isValidUrlFormat))
        { total_processed := 0, newly_indexed := 0, updated_indexed := 0,
          errors := [], cds := st.cds, log := SyncLog.empty
          op := { operation_id := "full_sync_" ++ toString env.now
                  operation_type := "full_sync", status := "running"
                  started_at := some env.now, completed_at := none
                  urls_processed := 0, urls_updated := 0, urls_failed := 0,
                  errors := [] }
          trace := [{ operation_id := "full_sync_" ++ toString env.now
                      operation_type := "full_sync", status := "running"
                      started_at := some env.now, completed_at := none
                      urls_processed := 0, urls_updated := 0,
                      urls_failed := 0,
                      errors := [] }] }
        w (by rw [chunkList_flatten]; exact hwnv)
    have hpres :=
      fullRun_foldl_sched_lookup env
        (chunkList env.batchSize (discovered.filter isValidUrlFormat))
        { total_processed := 0, newly_indexed := 0, updated_indexed := 0,
          errors := [], cds := st.cds, log := SyncLog.empty
          op := { operation_id := "full_sync_" ++ toString env.now
                  operation_type := "full_sync", status := "running"
                  started_at := some env.now, completed_at := none
                  urls_processed := 0, urls_updated := 0, urls_failed := 0,
                  errors := [] }
          trace := [{ operation_id := "full_sync_" ++ toString env.now
                      operation_type := "full_sync", status := "running"
                      started_at := some env.now, completed_at := none
                      urls_processed := 0, urls_updated := 0,
                      urls_failed := 0,
                      errors := [] }] }
        w (by
          intro u hu he
          rw [chunkList_flatten] at hu
          exact False.elim (hwnv (he ▸ hu)))
    obtain ⟨c1, c2⟩ :=
      cleanup_foldl_lookup_mem env
        (List.filter
          (fun u => !((discovered.filter isValidUrlFormat).contains u))
          (List.map Prod.fst st.cds.content_fingerprints))
        { removed := 0
          cds := ((chunkList env.batchSize
              (discovered.filter isValidUrlFormat)).foldl
            (fullRunBatchStep env)
            { total_processed := 0, newly_indexed := 0, updated_indexed := 0,
              errors := [], cds := st.cds, log := SyncLog.empty
              op := { operation_id := "full_sync_" ++ toString env.now
                      operation_type := "full_sync", status := "running"
                      started_at := some env.now, completed_at := none
                      urls_processed := 0, urls_updated := 0, urls_failed := 0,
                      errors := [] }
              trace := [{ operation_id := "full_sync_" ++ toString env.now
                          operation_type := "full_sync", status := "running"
                          started_at := some env.now, completed_at := none
                          urls_processed := 0, urls_updated := 0,
                          urls_failed := 0,
                          errors := [] }] }).cds
          deleteCalls := [] }
        w hw (hfnd.filter _) hand hands
    refine ⟨fun hdel => c1 hdel, fun hdel => ?_⟩
    obtain ⟨m1, m2⟩ := c2 hdel
    exact ⟨m1.trans hpre, m2.trans hpres⟩

/-- C9 (witness): prior monitored URLs {A, B, C}, current discovery
{A, B}: cleanup deletes exactly C's document (by the URL hash), removes
its fingerprint and schedule entry, leaving exactly 2 monitored URLs. -/
theorem fullSync_obsolete_cleanup_witness :
    ((w9St.cds.content_fingerprints.map Prod.fst).Nodup ∧
      (w9St.cds.monitoring_schedules.map Prod.fst).Nodup) ∧
    ((performFullSynchronization w9Env [w1UrlA, w1UrlB] w9St).log.deleteCalls
        = [modelHash w9UrlC.data] ∧
      alookup w9UrlC (performFullSynchronization w9Env [w1UrlA, w1UrlB]
          w9St).st.cds.content_fingerprints = none ∧
      alookup w9UrlC (performFullSynchronization w9Env [w1UrlA, w1UrlB]
          w9St).st.cds.monitoring_schedules = none ∧
      (performFullSynchronization w9Env [w1UrlA, w1UrlB]
          w9St).st.cds.monitoring_schedules.length = 2) ∧
    ((performFullSynchronization w9Env [w1UrlA, w1UrlB] w9St).log.deleteCalls
        = ((w9St.cds.content_fingerprints.map Prod.fst).filter
            (fun u =>
              !(([w1UrlA, w1UrlB].filter isValidUrlFormat).contains u))).map
            (fun u => w9Env.hash u.data)) :=
  ⟨⟨by decide, by decide⟩, by with_unfolding_all decide,
    (fullSync_obsolete_cleanup w9Env [w1UrlA, w1UrlB] w9St (by decide)
      (by decide)).1⟩
